import Mathlib

/-!
Shallow embedding of the DynamicBackground controller
(src/unnamed/part_000) and its shader uniform set
(src/DBG_ThreeShaders.ts).

Modelling conventions:
- JS numbers are modelled as rationals.
- GPU textures and offscreen canvases are modelled as records carrying a
  unique allocation id plus their pixel dimensions; disposing a texture
  records its id in a dedicated list (dispose is idempotent in THREE, so
  the list is deduplicated on insertion).
- Renders, cache lookups, image decodes and canvas allocations are counted
  in the state so that absence-of-effect properties can be stated.
- The asynchronous parts (the awaited image load inside Update and the
  setTimeout-driven crossfade steps) are modelled by an explicit
  single-threaded event loop: a list of timestamped tasks executed in
  time order (FIFO on ties), exactly the cooperative semantics of the
  JS event loop for timers.
- The external resource tracker (the Maid from the socali modules, which
  is not part of this repository) is modelled from the spec: it
  accumulates cleanup callbacks, runs them on destroy, supports
  IsDestroyed, Give and Clean.  Each registered callback of the source is
  represented by a tag interpreted by interpMaidTask.
-/

section RatReducibility

/-! The Batteries rational arithmetic is marked irreducible, which blocks
evaluation of the model by the decide tactic; re-mark it semireducible so
that concrete runs of the embedding reduce. -/

set_option allowUnsafeReducibility true in
attribute [semireducible] Rat.mul Rat.inv Rat.add Rat.sub Rat.neg

end RatReducibility

/-- A 2D vector uniform value (THREE.Vector2). -/
structure Vec2 where
  x : ℚ
  y : ℚ
deriving DecidableEq, Repr

/-- A GPU texture handle: allocation id plus the pixel size of the canvas
it was created from (THREE.CanvasTexture). -/
structure Texture where
  id : Nat
  cw : ℚ
  ch : ℚ
deriving DecidableEq, Repr

/-- An offscreen canvas: allocation id plus its pixel size. -/
structure CanvasV where
  id : Nat
  w : ℚ
  h : ℚ
deriving DecidableEq, Repr

/-- Observable events logged by the model: a committed texture swap
(completeTransition) and a rejected image load. -/
inductive Event where
  | commit (img : String)
  | loadError (img : String)
deriving DecidableEq, Repr

/-- Tags for the cleanup callbacks registered with the maid, one per
Give call in the source (constructor lines 83-183, AppendToElement line
519, animateTransition line 340). -/
inductive MaidTask where
  | geometry
  | renderer
  | material
  | texture
  | uniforms
  | animFrame
  | domRemove
  | cacheClear
  | fallback
  | sessionCancel (sid : Nat)
  | resizeObs
deriving DecidableEq, Repr

/-- The shader uniform set (ShaderUniforms in DBG_ThreeShaders.ts).
Texture slots are Option valued: none models both null and undefined. -/
structure ShaderUniforms where
  Time : ℚ
  RotationSpeed : ℚ
  TransitionProgress : ℚ
  BlurredCoverArt : Option Texture
  NewBlurredCoverArt : Option Texture
  BackgroundCircleOrigin : Vec2
  BackgroundCircleRadius : ℚ
  CenterCircleOrigin : Vec2
  CenterCircleRadius : ℚ
  LeftCircleOrigin : Vec2
  LeftCircleRadius : ℚ
  RightCircleOrigin : Vec2
  RightCircleRadius : ℚ
deriving DecidableEq, Repr

/-- One in-flight crossfade (the closure state of animateTransition):
step counter, total step count, per-step delay, the incoming texture and
url, the maid key of the registered cancel callback, and whether the
completion promise has resolved. -/
structure Session where
  sid : Nat
  canceled : Bool
  currentStep : Nat
  totalSteps : Nat
  stepDuration : ℚ
  newTexture : Texture
  newCoverArtUrl : String
  cleanupKey : Option MaidTask
  resolved : Bool
deriving DecidableEq, Repr

/-- The full mutable state of one DynamicBackground instance, together
with its maid and the instrumentation counters. -/
structure DBState where
  maidDestroyed : Bool
  maidTasks : List MaidTask
  blurAmount : ℚ
  rotationSpeed : ℚ
  transitionDuration : ℚ
  currentImage : Option String
  currentPlaceholderHueShift : ℚ
  texture : Option Texture
  uniforms : ShaderUniforms
  cache : List (String × CanvasV)
  sessions : List Session
  animationFrameId : Option Nat
  parentAttached : Bool
  resizeObserver : Bool
  renderer : Bool
  material : Bool
  meshGeometryDisposed : Bool
  disposed : List Nat
  renderCount : Nat
  cacheLookups : Nat
  decodes : Nat
  canvasAllocs : Nat
  nextId : Nat
  dataCoverId : Option String
  events : List Event
deriving DecidableEq, Repr

/-- Constructor options (DynamicBackgroundOptions).  The optional maid is
modelled by its destroyed flag and its already-registered task list. -/
structure Options where
  transition : Option (Bool ⊕ ℚ) := none
  blur : Option ℚ := none
  speed : Option ℚ := none
  maidDestroyed : Bool := false
  maidTasks : List MaidTask := []
  coverArtCache : Option (List (String × CanvasV)) := none
deriving Repr

/-- GetShaderUniforms (DBG_ThreeShaders.ts lines 213-240): default values
per uniform type, parsed from the declaration block: float to 0 except
RotationSpeed to 1.0 and TransitionProgress to 0.0; vec2 to (0, 0);
sampler2D to null except NewBlurredCoverArt, which gets a texture over a
fresh 1x1 OffscreenCanvas.  Takes and returns the allocation counter. -/
def GetShaderUniforms (nextId : Nat) : ShaderUniforms × Nat :=
  let tempTexture : Texture := ⟨nextId + 1, 1, 1⟩
  (⟨0, 1, 0, none, some tempTexture, ⟨0, 0⟩, 0, ⟨0, 0⟩, 0, ⟨0, 0⟩, 0, ⟨0, 0⟩, 0⟩,
   nextId + 2)

/-- Records a texture id as disposed; THREE texture disposal is
idempotent, so the list is deduplicated. -/
def insertDispose (id : Nat) (l : List Nat) : List Nat :=
  if id ∈ l then l else l ++ [id]

/-- DisposeShaderUniforms (DBG_ThreeShaders.ts lines 179-211): disposes
both texture slots (recording their ids), resets transition progress to
0 and zeroes the four origin vectors.  Radii are not touched. -/
def DisposeShaderUniforms (u : ShaderUniforms) (disposed : List Nat) :
    ShaderUniforms × List Nat :=
  let p1 := match u.BlurredCoverArt with
    | some t => ({u with BlurredCoverArt := none}, insertDispose t.id disposed)
    | none => (u, disposed)
  let p2 := match p1.1.NewBlurredCoverArt with
    | some t => ({p1.1 with NewBlurredCoverArt := none}, insertDispose t.id p1.2)
    | none => p1
  ({p2.1 with TransitionProgress := 0,
              BackgroundCircleOrigin := ⟨0, 0⟩,
              CenterCircleOrigin := ⟨0, 0⟩,
              LeftCircleOrigin := ⟨0, 0⟩,
              RightCircleOrigin := ⟨0, 0⟩}, p2.2)

/-- Map.get on the blurred cover art cache. -/
def cacheLookup (cache : List (String × CanvasV)) (url : String) : Option CanvasV :=
  match cache.find? (fun p => p.1 = url) with
  | some p => some p.2
  | none => none

/-- Map.set on the blurred cover art cache. -/
def cacheInsert (cache : List (String × CanvasV)) (url : String) (c : CanvasV) :
    List (String × CanvasV) :=
  cache ++ [(url, c)]

/-- A guarded render call: the source guards every render on the renderer
and scene still existing (for example Update line 255). -/
def renderIfAlive (db : DBState) : DBState :=
  if db.renderer then {db with renderCount := db.renderCount + 1} else db

/-- The image decode oracle: maps a url to the decoded image dimensions,
or none when the fetch/decode fails. -/
def Oracle : Type := String → Option (ℚ × ℚ)

/-- getBlurredCoverArt (lines 542-583).  On a cache hit the cached canvas
is returned unconditionally, ignoring the current blur amount and the
requested hue shift.  On a miss the image is decoded (none from the
oracle models a decode/fetch failure, which rejects), cropped to a
centered square of side min(width, height), circle-clipped, and drawn
blurred into a canvas of side originalSize + ceil(3*blur)*1.5; the
result is inserted into the cache. -/
def getBlurredCoverArt (db : DBState) (coverArtUrl : String)
    (_placeholderHueShift : ℚ) (oracle : Oracle) : DBState × Option CanvasV :=
  let db := {db with cacheLookups := db.cacheLookups + 1}
  match cacheLookup db.cache coverArtUrl with
  | some c => (db, some c)
  | none =>
    match oracle coverArtUrl with
    | none => ({db with decodes := db.decodes + 1}, none)
    | some wh =>
      let db := {db with decodes := db.decodes + 1}
      let originalSize := min wh.1 wh.2
      let blurExtent : ℤ := ⌈(3 : ℚ) * db.blurAmount⌉
      let db := {db with nextId := db.nextId + 1,
                         canvasAllocs := db.canvasAllocs + 1}
      let padding := (blurExtent : ℚ) * (3 / 2)
      let expandedSize := originalSize + padding
      let blurredCanvas : CanvasV := ⟨db.nextId, expandedSize, expandedSize⟩
      let db := {db with nextId := db.nextId + 1,
                         canvasAllocs := db.canvasAllocs + 1}
      let db := {db with cache := cacheInsert db.cache coverArtUrl blurredCanvas}
      (db, some blurredCanvas)

/-- startAnimation (lines 428-454): cancels any scheduled frame, then the
animate body checks the renderer, advances Time to now/1000 (seconds),
renders once and schedules the next frame (modelled as a fresh frame
id).  The self-perpetuating per-frame loop is abstracted to the frame id
being set. -/
def startAnimation (db : DBState) (now : ℚ) : DBState :=
  let db := {db with animationFrameId := none}
  if db.renderer then
    let db := {db with uniforms := {db.uniforms with Time := now / 1000}}
    let db := {db with renderCount := db.renderCount + 1}
    {db with animationFrameId := some db.nextId, nextId := db.nextId + 1}
  else db

/-- completeTransition (lines 400-423): disposes the previous current
texture, commits the incoming texture as current, clears the incoming
slot, resets transition progress, refreshes the rotation speed, stores
the new cover id, renders once and restarts the animation loop. -/
def completeTransition (now : ℚ) (db : DBState) (newTexture : Texture)
    (newCoverArtUrl : String) : DBState :=
  let db := match db.texture with
    | some t => {db with disposed := insertDispose t.id db.disposed}
    | none => db
  let db := {db with
    texture := some newTexture,
    uniforms := {db.uniforms with
      BlurredCoverArt := some newTexture,
      NewBlurredCoverArt := none,
      TransitionProgress := 0,
      RotationSpeed := db.rotationSpeed},
    dataCoverId := some newCoverArtUrl,
    currentImage := some newCoverArtUrl,
    events := db.events ++ [Event.commit newCoverArtUrl]}
  let db := renderIfAlive db
  startAnimation db now

/-- The part of initializeTexture (lines 304-319) after the awaited
getBlurredCoverArt: wraps the canvas in a texture, binds it as the
current texture uniform, resets Time, sets the rotation speed and
records the current image. -/
def initTexture (db : DBState) (canvas : CanvasV) (imageCoverUrl : String)
    (placeholderHueShift : ℚ) : DBState :=
  let texture : Texture := ⟨db.nextId, canvas.w, canvas.h⟩
  let db := {db with nextId := db.nextId + 1}
  {db with
    texture := some texture,
    uniforms := {db.uniforms with
      BlurredCoverArt := some texture,
      Time := 0,
      RotationSpeed := db.rotationSpeed},
    dataCoverId := some imageCoverUrl,
    currentImage := some imageCoverUrl,
    currentPlaceholderHueShift := placeholderHueShift}

/-- updateContainerDimensions (lines 461-484): scales by the device pixel
ratio, recomputes the four circle origins and radii from the scaled
viewport (the larger axis drives the radius scaling), renders once and
restarts the animation loop. -/
def updateContainerDimensions (db : DBState) (width height dpr now : ℚ) : DBState :=
  let scaledWidth := width * dpr
  let scaledHeight := height * dpr
  let largestAxisIsX := scaledWidth > scaledHeight
  let largestAxisSize := if scaledWidth > scaledHeight then scaledWidth else scaledHeight
  let db := {db with uniforms := {db.uniforms with
    BackgroundCircleOrigin := ⟨scaledWidth / 2, scaledHeight / 2⟩,
    BackgroundCircleRadius := largestAxisSize * (3 / 2),
    CenterCircleOrigin := ⟨scaledWidth / 2, scaledHeight / 2⟩,
    CenterCircleRadius := largestAxisSize * (if largestAxisIsX then 1 else 3 / 4),
    LeftCircleOrigin := ⟨0, scaledHeight⟩,
    LeftCircleRadius := largestAxisSize * (3 / 4),
    RightCircleOrigin := ⟨scaledWidth, 0⟩,
    RightCircleRadius := largestAxisSize * (if largestAxisIsX then 13 / 20 else 1 / 2)}}
  -- line 482 renders without a liveness guard; the claims only concern
  -- instances whose renderer is alive, where this equals a counted render
  let db := {db with renderCount := db.renderCount + 1}
  startAnimation db now

/-- The ResizeObserver callback installed by AppendToElement (lines
509-515): clamps the observed content size to a minimum of 500 in each
dimension and applies updateContainerDimensions. -/
def resizeObserved (db : DBState) (width height dpr now : ℚ) : DBState :=
  updateContainerDimensions db (max width 500) (max height 500) dpr now

/-- Maid.Give, modelled from the spec: registers a cleanup callback with
the tracker; a destroyed tracker accepts no new callback. -/
def maidGive (db : DBState) (t : MaidTask) : DBState :=
  if db.maidDestroyed then db else {db with maidTasks := db.maidTasks ++ [t]}

/-- AppendToElement (lines 490-534): bails out when the maid is
destroyed, re-parents the canvas, replaces the resize observer
(registering its disconnect with the maid) and performs the initial
clamped size update. -/
def AppendToElement (db : DBState) (clientWidth clientHeight dpr now : ℚ) : DBState :=
  if db.maidDestroyed then db
  else
    let db := {db with parentAttached := true, resizeObserver := true}
    let db := maidGive db MaidTask.resizeObs
    updateContainerDimensions db (max clientWidth 500) (max clientHeight 500) dpr now

/-- cleanup (lines 589-663), the fallback teardown: disconnects the
resize observer, cancels the animation frame, disposes uniforms,
material, texture, scene contents (the plane geometry), renderer,
detaches from the DOM, disposes the geometry again, clears the blur
cache and resets the tracking variables.  Every step is guarded on the
resource still being present. -/
def cleanup (db : DBState) : DBState :=
  let ud := DisposeShaderUniforms db.uniforms db.disposed
  let disposed := match db.texture with
    | some t => insertDispose t.id ud.2
    | none => ud.2
  {db with
    resizeObserver := false,
    animationFrameId := none,
    uniforms := ud.1,
    material := false,
    texture := none,
    meshGeometryDisposed := true,
    renderer := false,
    parentAttached := false,
    cache := [],
    disposed := disposed,
    currentImage := none,
    currentPlaceholderHueShift := 0}

/-- Interpretation of one registered maid cleanup callback, translated
from the closures passed to maid.Give in the source. -/
def interpMaidTask (db : DBState) (t : MaidTask) : DBState :=
  match t with
  | MaidTask.geometry => {db with meshGeometryDisposed := true}
  | MaidTask.renderer => if db.renderer then {db with renderer := false} else db
  | MaidTask.material => if db.material then {db with material := false} else db
  | MaidTask.texture =>
    match db.texture with
    | some tx => {db with disposed := insertDispose tx.id db.disposed, texture := none}
    | none => db
  | MaidTask.uniforms =>
    let ud := DisposeShaderUniforms db.uniforms db.disposed
    {db with uniforms := ud.1, disposed := ud.2}
  | MaidTask.animFrame =>
    if db.animationFrameId.isSome then {db with animationFrameId := none} else db
  | MaidTask.domRemove =>
    if db.parentAttached then {db with parentAttached := false} else db
  | MaidTask.cacheClear => {db with cache := []}
  | MaidTask.fallback => cleanup db
  | MaidTask.sessionCancel sid =>
    let cancelOne := fun (s : Session) =>
      if s.sid = sid then {s with canceled := true} else s
    let db := {db with sessions := db.sessions.map cancelOne}
    {db with uniforms := {db.uniforms with
      TransitionProgress := 0, RotationSpeed := db.rotationSpeed}}
  | MaidTask.resizeObs =>
    if db.resizeObserver then {db with resizeObserver := false} else db

/-- Runs a list of maid cleanup callbacks in registration order. -/
def runMaidTasks (l : List MaidTask) (db : DBState) : DBState :=
  l.foldl interpMaidTask db

/-- Maid.Destroy, modelled from the spec: runs every registered cleanup
callback and marks the tracker destroyed. -/
def maidDestroy (db : DBState) : DBState :=
  let db' := runMaidTasks db.maidTasks db
  {db' with maidTasks := [], maidDestroyed := true}

/-- Destroy (lines 283-297): when the maid was already destroyed
externally only the fallback cleanup runs; otherwise cleanup runs first
and then the maid is destroyed (which replays all registered cleanup
callbacks, including the session cancellations). -/
def Destroy (db : DBState) : DBState :=
  if db.maidDestroyed then cleanup db
  else maidDestroy (cleanup db)

/-- Maid.Clean, modelled from the spec: unregisters one cleanup callback
without running it (used after a transition completes, line 383). -/
def maidClean (db : DBState) (k : MaidTask) : DBState :=
  {db with maidTasks := db.maidTasks.erase k}

/-- The constructor (lines 62-184): defaults blur to 40, speed to 0.2, a
boolean transition option to 0.5 or 0, a missing one to 0.5; takes the
injected cache and maid or creates fresh ones; creates the uniforms via
GetShaderUniforms, applies the initial rotation speed, and registers the
per-resource cleanup callbacks plus the fallback with the maid. -/
def mkDynamicBackground (o : Options) : DBState :=
  let blurAmount := o.blur.getD 40
  let rotationSpeed := o.speed.getD (1 / 5)
  let transitionDuration := match o.transition with
    | some (Sum.inl b) => if b then 1 / 2 else 0
    | some (Sum.inr q) => q
    | none => 1 / 2
  let un := GetShaderUniforms 0
  let uniforms := {un.1 with RotationSpeed := rotationSpeed}
  let registered : List MaidTask :=
    [MaidTask.geometry, MaidTask.renderer, MaidTask.material, MaidTask.texture,
     MaidTask.uniforms, MaidTask.animFrame, MaidTask.domRemove,
     MaidTask.cacheClear, MaidTask.fallback]
  { maidDestroyed := o.maidDestroyed,
    maidTasks := if o.maidDestroyed then o.maidTasks else o.maidTasks ++ registered,
    blurAmount := blurAmount,
    rotationSpeed := rotationSpeed,
    transitionDuration := transitionDuration,
    currentImage := none,
    currentPlaceholderHueShift := 0,
    texture := none,
    uniforms := uniforms,
    cache := o.coverArtCache.getD [],
    sessions := [],
    animationFrameId := none,
    parentAttached := false,
    resizeObserver := false,
    renderer := true,
    material := true,
    meshGeometryDisposed := false,
    disposed := [],
    renderCount := 0,
    cacheLookups := 0,
    decodes := 0,
    canvasAllocs := 0,
    nextId := un.2,
    dataCoverId := none,
    events := [] }

/-- Outcome of the synchronous head of Update (lines 201-234), up to the
first await: bail out on a destroyed maid, bail out when nothing
changed, or proceed (first-time initialization when no texture exists,
otherwise the transition path, which also cancels any scheduled
animation frame). -/
inductive UpdatePreOut where
  | destroyed (db : DBState)
  | unchanged (db : DBState)
  | firstTime (db : DBState) (image : String) (hue : ℚ)
  | startLoad (db : DBState) (image : String) (hue : ℚ)
deriving Repr

/-- The synchronous head of Update (lines 201-234): default arguments,
change detection, stored-value update, branch selection. -/
def UpdatePre (db : DBState) (image : String)
    (hue? blur? speed? : Option ℚ) : UpdatePreOut :=
  if db.maidDestroyed then UpdatePreOut.destroyed db
  else
    let placeholderHueShift := hue?.getD 0
    let blur := blur?.getD db.blurAmount
    let speed := speed?.getD db.rotationSpeed
    let imageChanged := some image ≠ db.currentImage
    let hueShiftChanged := placeholderHueShift ≠ db.currentPlaceholderHueShift
    let blurChanged := blur ≠ db.blurAmount
    let speedChanged := speed ≠ db.rotationSpeed
    if ¬imageChanged ∧ ¬hueShiftChanged ∧ ¬blurChanged ∧ ¬speedChanged then
      UpdatePreOut.unchanged db
    else
      let db := {db with
        blurAmount := blur,
        rotationSpeed := speed,
        currentImage := some image,
        currentPlaceholderHueShift := placeholderHueShift}
      if db.texture = none then UpdatePreOut.firstTime db image placeholderHueShift
      else
        let db := {db with animationFrameId := none}
        UpdatePreOut.startLoad db image placeholderHueShift

/-- Result of one crossfade step. -/
inductive StepOutcome where
  | resolvedCanceled
  | scheduledNext
  | committed
deriving DecidableEq, Repr

/-- The uncancelled body of one animation step (lines 356-367):
increment the step counter, set transition progress to
currentStep / totalSteps, and force one render. -/
def performStepPhase (db : DBState) (sess : Session) : DBState × Session :=
  let sess := {sess with currentStep := sess.currentStep + 1}
  let progress := (sess.currentStep : ℚ) / (sess.totalSteps : ℚ)
  let db := {db with uniforms :=
    {db.uniforms with TransitionProgress := progress}}
  (renderIfAlive db, sess)

/-- performAnimationStep (lines 350-388): a canceled session resolves
without effect; otherwise the step body runs, then either the next step
is scheduled (currentStep < totalSteps) or the transition completes and
the registered cancel callback is unregistered from the maid. -/
def performAnimationStep (now : ℚ) (db : DBState) (sess : Session) :
    DBState × Session × StepOutcome :=
  if sess.canceled then (db, {sess with resolved := true}, StepOutcome.resolvedCanceled)
  else
    let ds := performStepPhase db sess
    let db := ds.1
    let sess := ds.2
    if sess.currentStep < sess.totalSteps ∧ sess.canceled = false then
      (db, sess, StepOutcome.scheduledNext)
    else if sess.canceled then
      (db, {sess with resolved := true}, StepOutcome.resolvedCanceled)
    else
      let db := completeTransition now db sess.newTexture sess.newCoverArtUrl
      let db := match sess.cleanupKey with
        | some k => if db.maidDestroyed then db else maidClean db k
        | none => db
      (db, {sess with resolved := true}, StepOutcome.committed)

/-- Iterates the uncancelled step body k times (the progress trajectory
of an undisturbed crossfade). -/
def iterPhase (db : DBState) (sess : Session) : Nat → DBState × Session
  | 0 => (db, sess)
  | k + 1 =>
    let ds := iterPhase db sess k
    performStepPhase ds.1 ds.2

/-- The kinds of tasks that can sit on the event loop: a caller-issued
public call, the continuation of an awaited image load (of Update or of
initializeTexture), and one scheduled crossfade step of a session. -/
inductive TaskAction where
  | callUpdate (image : String) (hue? blur? speed? : Option ℚ)
  | callDestroy
  | callAppend (clientWidth clientHeight dpr : ℚ)
  | callResize (width height dpr : ℚ)
  | initResume (image : String) (hue : ℚ)
  | updateResume (image : String) (hue : ℚ)
  | sessionStep (sid : Nat)
deriving DecidableEq, Repr

/-- The whole world: the instance state, the scheduled tasks with their
due times (milliseconds), the current time and the session id
allocator. -/
structure World where
  db : DBState
  tasks : List (ℚ × TaskAction)
  now : ℚ
  nextSid : Nat
deriving DecidableEq, Repr

/-- Picks the first task with the minimal due time and returns it with
the remaining queue (timer semantics: earliest due first, FIFO among
equal due times). -/
def pickMin : List (ℚ × TaskAction) →
    Option ((ℚ × TaskAction) × List (ℚ × TaskAction))
  | [] => none
  | x :: xs =>
    match pickMin xs with
    | none => some (x, [])
    | some (y, ys) => if x.1 ≤ y.1 then some (x, xs) else some (y, x :: ys)

/-- Schedules a task at an absolute due time (setTimeout). -/
def schedule (w : World) (t : ℚ) (a : TaskAction) : World :=
  {w with tasks := w.tasks ++ [(t, a)]}

/-- The synchronous tail of Update after the awaited getBlurredCoverArt
succeeded (lines 239-260): wrap the canvas in a texture, dispose any
texture still in the incoming slot, bind the new one, refresh the
rotation speed, force a render, reset transition progress. -/
def updateAfterLoadCore (db : DBState) (canvas : CanvasV) : DBState × Texture :=
  let newTexture : Texture := ⟨db.nextId, canvas.w, canvas.h⟩
  let db := {db with nextId := db.nextId + 1}
  let db := match db.uniforms.NewBlurredCoverArt with
    | some t => {db with disposed := insertDispose t.id db.disposed}
    | none => db
  let db := {db with uniforms := {db.uniforms with
    NewBlurredCoverArt := some newTexture,
    RotationSpeed := db.rotationSpeed}}
  let db := renderIfAlive db
  ({db with uniforms := {db.uniforms with TransitionProgress := 0}}, newTexture)

/-- The setup of animateTransition (lines 326-347 and 390-392): create
the session closure state, register the cancel callback with the maid
when it is not destroyed, and schedule the first step after the fixed
50 ms startup delay. -/
def animateTransitionStart (w : World) (newTexture : Texture) (image : String) : World :=
  let stepDuration := w.db.transitionDuration * 1000 / 10
  let sid := w.nextSid
  let key : Option MaidTask :=
    if w.db.maidDestroyed then none else some (MaidTask.sessionCancel sid)
  let db := if w.db.maidDestroyed then w.db
    else maidGive w.db (MaidTask.sessionCancel sid)
  let sess : Session :=
    ⟨sid, false, 0, 10, stepDuration, newTexture, image, key, false⟩
  let db := {db with sessions := db.sessions ++ [sess]}
  schedule {w with db := db, nextSid := w.nextSid + 1} (w.now + 50)
    (TaskAction.sessionStep sid)

/-- The tail of Update after the awaited getBlurredCoverArt succeeded
(lines 239-269): the synchronous texture swap preparation, then either
an immediate completion (duration <= 0) or the animated transition. -/
def updateAfterLoad (w : World) (canvas : CanvasV) (image : String) : World :=
  let dt := updateAfterLoadCore w.db canvas
  if dt.1.transitionDuration ≤ 0 then
    {w with db := completeTransition w.now dt.1 dt.2 image}
  else
    animateTransitionStart {w with db := dt.1} dt.2 image

/-- Fires one scheduled crossfade step for the session with the given
id: runs performAnimationStep and either schedules the next step or
records the session as resolved. -/
def execSessionStep (w : World) (sid : Nat) : World :=
  match w.db.sessions.find? (fun s => s.sid = sid) with
  | none => w
  | some sess =>
    let r := performAnimationStep w.now w.db sess
    let updateOne := fun (s : Session) => if s.sid = sid then r.2.1 else s
    let db := {r.1 with sessions := r.1.sessions.map updateOne}
    match r.2.2 with
    | StepOutcome.scheduledNext =>
      schedule {w with db := db} (w.now + sess.stepDuration) (TaskAction.sessionStep sid)
    | _ => {w with db := db}

/-- Executes one task.  The awaited image load inside Update and
initializeTexture is modelled by scheduling the continuation after
loadDelay (0 for a cache hit, whose promise resolves in a microtask). -/
def execAction (oracle : Oracle) (loadDelay : ℚ) (w : World) (a : TaskAction) : World :=
  match a with
  | TaskAction.callUpdate image hue? blur? speed? =>
    match UpdatePre w.db image hue? blur? speed? with
    | UpdatePreOut.destroyed db => {w with db := db}
    | UpdatePreOut.unchanged db => {w with db := db}
    | UpdatePreOut.firstTime db image hue =>
      let d := if (cacheLookup db.cache image).isSome then 0 else loadDelay
      schedule {w with db := db} (w.now + d) (TaskAction.initResume image hue)
    | UpdatePreOut.startLoad db image hue =>
      let d := if (cacheLookup db.cache image).isSome then 0 else loadDelay
      schedule {w with db := db} (w.now + d) (TaskAction.updateResume image hue)
  | TaskAction.callDestroy => {w with db := Destroy w.db}
  | TaskAction.callAppend cw ch dpr =>
    {w with db := AppendToElement w.db cw ch dpr w.now}
  | TaskAction.callResize width height dpr =>
    {w with db := resizeObserved w.db width height dpr w.now}
  | TaskAction.initResume image hue =>
    let r := getBlurredCoverArt w.db image hue oracle
    match r.2 with
    | none => {w with db := {r.1 with events := r.1.events ++ [Event.loadError image]}}
    | some canvas => {w with db := initTexture r.1 canvas image hue}
  | TaskAction.updateResume image hue =>
    let r := getBlurredCoverArt w.db image hue oracle
    match r.2 with
    | none => {w with db := {r.1 with events := r.1.events ++ [Event.loadError image]}}
    | some canvas => updateAfterLoad {w with db := r.1} canvas image
  | TaskAction.sessionStep sid => execSessionStep w sid

/-- One turn of the event loop: run the earliest due task, advancing the
clock to its due time. -/
def loopStep (oracle : Oracle) (loadDelay : ℚ) (w : World) : World :=
  match pickMin w.tasks with
  | none => w
  | some (ta, rest) =>
    execAction oracle loadDelay {w with tasks := rest, now := max w.now ta.1} ta.2

/-- Runs the event loop for a bounded number of turns. -/
def runLoop (oracle : Oracle) (loadDelay : ℚ) : Nat → World → World
  | 0, w => w
  | n + 1, w => runLoop oracle loadDelay n (loopStep oracle loadDelay w)

/-- A freshly constructed instance with an empty event loop. -/
def initialWorld (o : Options) : World :=
  ⟨mkDynamicBackground o, [], 0, 0⟩

/-- The states a background instance can reach: construction with any
options, any caller-issued public call enqueued at any time, and any
number of event-loop turns under any decode oracle and load latency. -/
inductive Reachable : World → Prop
  | init (o : Options) : Reachable (initialWorld o)
  | step (oracle : Oracle) (d : ℚ) (w : World) :
      Reachable w → Reachable (loopStep oracle d w)
  | callUpdate (w : World) (t : ℚ) (image : String) (hue? blur? speed? : Option ℚ) :
      Reachable w → Reachable (schedule w t (TaskAction.callUpdate image hue? blur? speed?))
  | callDestroy (w : World) (t : ℚ) :
      Reachable w → Reachable (schedule w t TaskAction.callDestroy)
  | callAppend (w : World) (t : ℚ) (cw ch dpr : ℚ) :
      Reachable w → Reachable (schedule w t (TaskAction.callAppend cw ch dpr))
  | callResize (w : World) (t : ℚ) (width height dpr : ℚ) :
      Reachable w → Reachable (schedule w t (TaskAction.callResize width height dpr))

/-! Claim C9: default uniform initialization. -/

/-- C9: GetShaderUniforms initializes every declared uniform by type:
scalars to 0 except RotationSpeed = 1.0 and TransitionProgress = 0.0,
2D vectors to (0,0), texture slots to null except NewBlurredCoverArt,
which receives a texture over a 1x1 placeholder canvas. -/
theorem getShaderUniforms_default_values (n : Nat) :
    (GetShaderUniforms n).1.Time = 0 ∧
    (GetShaderUniforms n).1.RotationSpeed = 1 ∧
    (GetShaderUniforms n).1.TransitionProgress = 0 ∧
    (GetShaderUniforms n).1.BackgroundCircleRadius = 0 ∧
    (GetShaderUniforms n).1.CenterCircleRadius = 0 ∧
    (GetShaderUniforms n).1.LeftCircleRadius = 0 ∧
    (GetShaderUniforms n).1.RightCircleRadius = 0 ∧
    (GetShaderUniforms n).1.BackgroundCircleOrigin = ⟨0, 0⟩ ∧
    (GetShaderUniforms n).1.CenterCircleOrigin = ⟨0, 0⟩ ∧
    (GetShaderUniforms n).1.LeftCircleOrigin = ⟨0, 0⟩ ∧
    (GetShaderUniforms n).1.RightCircleOrigin = ⟨0, 0⟩ ∧
    (GetShaderUniforms n).1.BlurredCoverArt = none ∧
    ∃ t : Texture, (GetShaderUniforms n).1.NewBlurredCoverArt = some t ∧
      t.cw = 1 ∧ t.ch = 1 :=
  ⟨rfl, rfl, rfl, rfl, rfl, rfl, rfl, rfl, rfl, rfl, rfl, rfl,
   ⟨⟨n + 1, 1, 1⟩, rfl, rfl, rfl⟩⟩

/-! Claim C7: blur cache memoization. -/

/-- C7: when the image identifier is in the blur cache, getBlurredCoverArt
returns the cached raster itself, with no decode, no canvas allocation
and no state change beyond the lookup counter, regardless of the hue
shift requested, the current blur amount, or what the decode oracle
would return. -/
theorem getBlurredCoverArt_cache_hit (db : DBState) (url : String) (hue : ℚ)
    (oracle : Oracle) (c : CanvasV) (h : cacheLookup db.cache url = some c) :
    getBlurredCoverArt db url hue oracle =
      ({db with cacheLookups := db.cacheLookups + 1}, some c) := by
  simp [getBlurredCoverArt, h]

/-- A concrete state whose blur cache already holds an entry for u. -/
def hitState : DBState :=
  {mkDynamicBackground {} with cache := [("u", ⟨7, 5, 5⟩)]}

/-- Witness for C7: a concrete state whose cache holds url u. -/
theorem getBlurredCoverArt_cache_hit_witness :
    cacheLookup hitState.cache "u" = some ⟨7, 5, 5⟩ ∧
    getBlurredCoverArt hitState "u" 120 (fun _ => some (9, 9)) =
      ({hitState with cacheLookups := hitState.cacheLookups + 1}, some ⟨7, 5, 5⟩) :=
  ⟨by decide,
   getBlurredCoverArt_cache_hit hitState "u" 120 (fun _ => some (9, 9)) _ (by decide)⟩

/-! Claim C4: Update is a no-op on unchanged arguments and on a torn-down
controller. -/

/-- C4: an Update call whose arguments all equal the currently applied
state (with blur and speed defaulting to the current values), or one
issued after teardown, leaves the whole state unchanged: no render, no
allocation, no cache lookup, no scheduled continuation. -/
theorem update_unchanged_noop (w : World) (oracle : Oracle) (d t : ℚ)
    (image : String) (hue? blur? speed? : Option ℚ)
    (htasks : w.tasks = [(t, TaskAction.callUpdate image hue? blur? speed?)])
    (h : w.db.maidDestroyed = true ∨
      (some image = w.db.currentImage ∧
       hue?.getD 0 = w.db.currentPlaceholderHueShift ∧
       blur?.getD w.db.blurAmount = w.db.blurAmount ∧
       speed?.getD w.db.rotationSpeed = w.db.rotationSpeed)) :
    loopStep oracle d w = {w with tasks := [], now := max w.now t} := by
  have hp : pickMin w.tasks =
      some ((t, TaskAction.callUpdate image hue? blur? speed?), []) := by
    rw [htasks]; rfl
  rw [loopStep, hp]
  rcases h with hd | ⟨h1, h2, h3, h4⟩
  · simp [execAction, UpdatePre, hd]
  · by_cases hd : w.db.maidDestroyed
    · simp [execAction, UpdatePre, hd]
    · simp [execAction, UpdatePre, hd, h1, h2, h3, h4]

/-- A concrete instance currently showing image x. -/
def showingX : DBState :=
  {mkDynamicBackground {} with currentImage := some "x", texture := some ⟨3, 5, 5⟩}

/-- The world in which an Update with unchanged arguments is due. -/
def showingXWorld : World :=
  ⟨showingX, [(0, TaskAction.callUpdate "x" none none none)], 0, 0⟩

/-- Witness for C4: the instance showing x, updated with identical
arguments. -/
theorem update_unchanged_noop_witness :
    (showingXWorld.db.maidDestroyed = true ∨
      (some "x" = showingXWorld.db.currentImage ∧
       (none : Option ℚ).getD 0 = showingXWorld.db.currentPlaceholderHueShift ∧
       (none : Option ℚ).getD showingXWorld.db.blurAmount = showingXWorld.db.blurAmount ∧
       (none : Option ℚ).getD showingXWorld.db.rotationSpeed = showingXWorld.db.rotationSpeed)) ∧
    loopStep (fun _ => none) 10 showingXWorld =
      {showingXWorld with tasks := [], now := max showingXWorld.now 0} :=
  ⟨Or.inr ⟨by decide, by decide, by decide, by decide⟩,
   update_unchanged_noop showingXWorld (fun _ => none) 10 0 "x" none none none rfl
     (Or.inr ⟨by decide, by decide, by decide, by decide⟩)⟩

/-! Claim C2: behavior of Update when the image load fails. -/

/-- An oracle under which every image load fails. -/
def failOracle : Oracle := fun _ => none

/-- A fresh instance with one Update for image b due at time 0. -/
def c2world : World :=
  ⟨mkDynamicBackground {}, [(0, TaskAction.callUpdate "b" none none none)], 0, 0⟩

/-- Counterexample for C2: the load of b fails and Update rejects, yet
the stored current image identifier has already been overwritten with b
before the failure, so the claimed absence of partial state mutation is
false. -/
theorem update_loadFailure_counterexample :
    (runLoop failOracle 10 2 c2world).db.events = [Event.loadError "b"] ∧
    c2world.db.currentImage = none ∧
    (runLoop failOracle 10 2 c2world).db.currentImage = some "b" := by
  refine ⟨by decide, by decide, by decide⟩

/-- C2 (amended): when the load fails the operation rejects with the
load error and the current texture, all uniforms, the render count and
the canvas allocations are unchanged, but the stored change-detection
fields (current image, blur amount, rotation speed, hue shift) have
already been overwritten with the new values before the failure. -/
theorem update_loadFailure_rejects_after_stored_mutation
    (w : World) (oracle : Oracle) (d t : ℚ) (image : String)
    (hue? blur? speed? : Option ℚ)
    (htasks : w.tasks = [(t, TaskAction.callUpdate image hue? blur? speed?)])
    (halive : w.db.maidDestroyed = false)
    (hchanged : some image ≠ w.db.currentImage)
    (hmiss : cacheLookup w.db.cache image = none)
    (hfail : oracle image = none) :
    (runLoop oracle d 2 w).db.uniforms = w.db.uniforms ∧
    (runLoop oracle d 2 w).db.texture = w.db.texture ∧
    (runLoop oracle d 2 w).db.renderCount = w.db.renderCount ∧
    (runLoop oracle d 2 w).db.canvasAllocs = w.db.canvasAllocs ∧
    (runLoop oracle d 2 w).db.events = w.db.events ++ [Event.loadError image] ∧
    (runLoop oracle d 2 w).db.currentImage = some image ∧
    (runLoop oracle d 2 w).db.blurAmount = blur?.getD w.db.blurAmount ∧
    (runLoop oracle d 2 w).db.rotationSpeed = speed?.getD w.db.rotationSpeed ∧
    (runLoop oracle d 2 w).db.currentPlaceholderHueShift = hue?.getD 0 ∧
    (runLoop oracle d 2 w).tasks = [] := by
  have hp : pickMin w.tasks =
      some ((t, TaskAction.callUpdate image hue? blur? speed?), []) := by
    rw [htasks]; rfl
  by_cases htex : w.db.texture = none
  · simp [runLoop, loopStep, hp, execAction, UpdatePre, halive, hchanged, htex,
      hmiss, pickMin, getBlurredCoverArt, hfail, schedule]
  · simp [runLoop, loopStep, hp, execAction, UpdatePre, halive, hchanged, htex,
      hmiss, pickMin, getBlurredCoverArt, hfail, schedule]

/-- Witness for C2 (amended): the fresh instance updated with b under the
failing oracle. -/
theorem update_loadFailure_witness :
    c2world.tasks = [(0, TaskAction.callUpdate "b" none none none)] ∧
    c2world.db.maidDestroyed = false ∧
    some "b" ≠ c2world.db.currentImage ∧
    cacheLookup c2world.db.cache "b" = none ∧
    failOracle "b" = none ∧
    (runLoop failOracle 10 2 c2world).db.currentImage = some "b" ∧
    (runLoop failOracle 10 2 c2world).db.texture = c2world.db.texture :=
  ⟨rfl, by decide, by decide, by decide, rfl,
   (update_loadFailure_rejects_after_stored_mutation c2world failOracle 10 0 "b"
      none none none rfl (by decide) (by decide) (by decide) rfl).2.2.2.2.2.1,
   (update_loadFailure_rejects_after_stored_mutation c2world failOracle 10 0 "b"
      none none none rfl (by decide) (by decide) (by decide) rfl).2.1⟩

/-! Claim C10: first-time Update initializes the texture but renders
nothing and does not start the animation loop. -/

/-- C10: an Update on an instance with no current texture builds the
blurred raster (one decode, two canvas allocations), installs the
current texture and its uniform, resets Time, applies the rotation
speed, but performs no render, starts no animation loop and creates no
session; the first render happens only through AppendToElement (which
renders immediately and restarts the loop) or a later update. -/
theorem update_firstTime_no_render (w : World) (oracle : Oracle) (d t : ℚ)
    (image : String) (hue? blur? speed? : Option ℚ) (wd ht : ℚ)
    (htasks : w.tasks = [(t, TaskAction.callUpdate image hue? blur? speed?)])
    (halive : w.db.maidDestroyed = false)
    (htex : w.db.texture = none)
    (hchanged : some image ≠ w.db.currentImage)
    (hmiss : cacheLookup w.db.cache image = none)
    (hload : oracle image = some (wd, ht)) :
    (∃ tex : Texture, (runLoop oracle d 2 w).db.texture = some tex ∧
      (runLoop oracle d 2 w).db.uniforms.BlurredCoverArt = some tex) ∧
    (runLoop oracle d 2 w).db.uniforms.Time = 0 ∧
    (runLoop oracle d 2 w).db.uniforms.RotationSpeed = speed?.getD w.db.rotationSpeed ∧
    (runLoop oracle d 2 w).db.currentImage = some image ∧
    (runLoop oracle d 2 w).db.renderCount = w.db.renderCount ∧
    (runLoop oracle d 2 w).db.animationFrameId = w.db.animationFrameId ∧
    (runLoop oracle d 2 w).db.sessions = w.db.sessions ∧
    (runLoop oracle d 2 w).db.decodes = w.db.decodes + 1 ∧
    (runLoop oracle d 2 w).db.canvasAllocs = w.db.canvasAllocs + 2 ∧
    (runLoop oracle d 2 w).tasks = [] ∧
    (∀ (db2 : DBState) (cw2 ch2 dpr2 now2 : ℚ),
      db2.maidDestroyed = false → db2.renderer = true →
      (AppendToElement db2 cw2 ch2 dpr2 now2).renderCount = db2.renderCount + 2) := by
  have hp : pickMin w.tasks =
      some ((t, TaskAction.callUpdate image hue? blur? speed?), []) := by
    rw [htasks]; rfl
  refine ⟨?_, ?_⟩
  · simp [runLoop, loopStep, hp, execAction, UpdatePre, halive, hchanged, htex,
      hmiss, pickMin, getBlurredCoverArt, hload, schedule, initTexture]
  refine ⟨?_, ?_⟩
  · simp [runLoop, loopStep, hp, execAction, UpdatePre, halive, hchanged, htex,
      hmiss, pickMin, getBlurredCoverArt, hload, schedule, initTexture]
  refine ⟨?_, ?_⟩
  · simp [runLoop, loopStep, hp, execAction, UpdatePre, halive, hchanged, htex,
      hmiss, pickMin, getBlurredCoverArt, hload, schedule, initTexture]
  refine ⟨?_, ?_, ?_, ?_, ?_, ?_, ?_, ?_⟩
  · simp [runLoop, loopStep, hp, execAction, UpdatePre, halive, hchanged, htex,
      hmiss, pickMin, getBlurredCoverArt, hload, schedule, initTexture]
  · simp [runLoop, loopStep, hp, execAction, UpdatePre, halive, hchanged, htex,
      hmiss, pickMin, getBlurredCoverArt, hload, schedule, initTexture]
  · simp [runLoop, loopStep, hp, execAction, UpdatePre, halive, hchanged, htex,
      hmiss, pickMin, getBlurredCoverArt, hload, schedule, initTexture]
  · simp [runLoop, loopStep, hp, execAction, UpdatePre, halive, hchanged, htex,
      hmiss, pickMin, getBlurredCoverArt, hload, schedule, initTexture]
  · simp [runLoop, loopStep, hp, execAction, UpdatePre, halive, hchanged, htex,
      hmiss, pickMin, getBlurredCoverArt, hload, schedule, initTexture]
  · simp [runLoop, loopStep, hp, execAction, UpdatePre, halive, hchanged, htex,
      hmiss, pickMin, getBlurredCoverArt, hload, schedule, initTexture]
  · simp [runLoop, loopStep, hp, execAction, UpdatePre, halive, hchanged, htex,
      hmiss, pickMin, getBlurredCoverArt, hload, schedule, initTexture]
  · intro db2 cw2 ch2 dpr2 now2 halive2 hrend2
    simp [AppendToElement, maidGive, updateContainerDimensions, startAnimation,
      halive2, hrend2]

/-- An oracle under which every image decodes as 600 by 600. -/
def okOracle : Oracle := fun _ => some (600, 600)

/-- A fresh instance with one first-time Update for image a due at 0. -/
def c10world : World :=
  ⟨mkDynamicBackground {}, [(0, TaskAction.callUpdate "a" none none none)], 0, 0⟩

/-- Witness for C10: a fresh instance receiving its first Update. -/
theorem update_firstTime_no_render_witness :
    c10world.db.texture = none ∧
    c10world.db.maidDestroyed = false ∧
    (runLoop okOracle 10 2 c10world).db.renderCount = c10world.db.renderCount ∧
    (runLoop okOracle 10 2 c10world).db.currentImage = some "a" :=
  ⟨rfl, rfl,
   (update_firstTime_no_render c10world okOracle 10 0 "a" none none none 600 600
      rfl rfl rfl (by decide) (by decide) rfl).2.2.2.2.1,
   (update_firstTime_no_render c10world okOracle 10 0 "a" none none none 600 600
      rfl rfl rfl (by decide) (by decide) rfl).2.2.2.1⟩

/-! Claim C3: an undisturbed transition runs exactly 10 steps. -/

/-- Rendering does not change the uniform set. -/
theorem renderIfAlive_uniforms (db : DBState) :
    (renderIfAlive db).uniforms = db.uniforms := by
  unfold renderIfAlive; split <;> rfl

/-- Rendering does not change the texture. -/
theorem renderIfAlive_texture (db : DBState) :
    (renderIfAlive db).texture = db.texture := by
  unfold renderIfAlive; split <;> rfl

/-- Rendering does not change the sessions. -/
theorem renderIfAlive_sessions (db : DBState) :
    (renderIfAlive db).sessions = db.sessions := by
  unfold renderIfAlive; split <;> rfl

/-- Rendering does not change the current image. -/
theorem renderIfAlive_currentImage (db : DBState) :
    (renderIfAlive db).currentImage = db.currentImage := by
  unfold renderIfAlive; split <;> rfl

/-- The session after k uncancelled step bodies: only the step counter
has advanced. -/
theorem iterPhase_sess (db : DBState) (sess : Session) (k : Nat) :
    (iterPhase db sess k).2 = {sess with currentStep := sess.currentStep + k} := by
  induction k with
  | zero => rfl
  | succ k ih =>
    show (performStepPhase (iterPhase db sess k).1 (iterPhase db sess k).2).2 = _
    rw [ih]
    rfl

/-- The transition progress after k uncancelled step bodies, k >= 1. -/
theorem iterPhase_progress (db : DBState) (sess : Session) (k : Nat) (h1 : 1 ≤ k) :
    (iterPhase db sess k).1.uniforms.TransitionProgress =
      ((sess.currentStep + k : ℕ) : ℚ) / ((sess.totalSteps : ℕ) : ℚ) := by
  cases k with
  | zero => omega
  | succ k =>
    show (performStepPhase (iterPhase db sess k).1 (iterPhase db sess k).2).1.uniforms.TransitionProgress = _
    rw [performStepPhase, renderIfAlive_uniforms, iterPhase_sess]
    simp
    ring_nf

/-- C3: for a fresh session with the fixed 10 total steps that is never
canceled, the k-th step sets transition progress to k/10 (so progress is
monotonically non-decreasing across steps), the 10th step body sets it
to exactly 1 immediately before the commit, the step after the 9th is
the committing one, and the commit installs the incoming texture and
url, clears the incoming slot and resets progress to 0. -/
theorem transition_ten_steps (db : DBState) (sess : Session) (now : ℚ)
    (hc : sess.canceled = false) (h0 : sess.currentStep = 0)
    (ht : sess.totalSteps = 10) :
    (∀ k : Nat, 1 ≤ k → k ≤ 10 →
      (iterPhase db sess k).1.uniforms.TransitionProgress = (k : ℚ) / 10) ∧
    (∀ j k : Nat, 1 ≤ j → j ≤ k → k ≤ 10 →
      (iterPhase db sess j).1.uniforms.TransitionProgress ≤
        (iterPhase db sess k).1.uniforms.TransitionProgress) ∧
    (∀ k : Nat, k < 9 →
      (performAnimationStep now (iterPhase db sess k).1 (iterPhase db sess k).2).2.2 =
        StepOutcome.scheduledNext) ∧
    (iterPhase db sess 10).1.uniforms.TransitionProgress = 1 ∧
    (performAnimationStep now (iterPhase db sess 9).1 (iterPhase db sess 9).2).2.2 =
      StepOutcome.committed ∧
    (performAnimationStep now (iterPhase db sess 9).1
        (iterPhase db sess 9).2).1.uniforms.TransitionProgress = 0 ∧
    (performAnimationStep now (iterPhase db sess 9).1
        (iterPhase db sess 9).2).1.texture = some sess.newTexture ∧
    (performAnimationStep now (iterPhase db sess 9).1
        (iterPhase db sess 9).2).1.currentImage = some sess.newCoverArtUrl ∧
    (performAnimationStep now (iterPhase db sess 9).1
        (iterPhase db sess 9).2).1.uniforms.NewBlurredCoverArt = none := by
  have hprog : ∀ k : Nat, 1 ≤ k → k ≤ 10 →
      (iterPhase db sess k).1.uniforms.TransitionProgress = (k : ℚ) / 10 := by
    intro k hk1 hk10
    rw [iterPhase_progress db sess k hk1, h0, ht]
    norm_num
  have hcommit :
      performAnimationStep now (iterPhase db sess 9).1 (iterPhase db sess 9).2 =
      (let db10 := (performStepPhase (iterPhase db sess 9).1 (iterPhase db sess 9).2).1
       let sess10 := (performStepPhase (iterPhase db sess 9).1 (iterPhase db sess 9).2).2
       let dbC := completeTransition now db10 sess10.newTexture sess10.newCoverArtUrl
       let dbC := match sess10.cleanupKey with
         | some k => if dbC.maidDestroyed then dbC else maidClean dbC k
         | none => dbC
       (dbC, {sess10 with resolved := true}, StepOutcome.committed)) := by
    rw [performAnimationStep]
    rw [iterPhase_sess]
    simp [hc, performStepPhase, ht, h0, iterPhase_sess]
  refine ⟨hprog, ?_, ?_, ?_, ?_, ?_, ?_, ?_, ?_⟩
  · intro j k hj1 hjk hk10
    rw [hprog j hj1 (le_trans hjk hk10), hprog k (le_trans hj1 hjk) hk10]
    have : (j : ℚ) ≤ (k : ℚ) := by exact_mod_cast hjk
    linarith
  · intro k hk9
    rw [performAnimationStep, iterPhase_sess]
    simp [hc, performStepPhase, ht, h0]
    split
    · rfl
    · omega
  · exact hprog 10 (by norm_num) (by norm_num)
  · rw [hcommit]
  · rw [hcommit]
    have hmt : ∀ (dbC : DBState) (ck : Option MaidTask),
        (match ck with
          | some k => if dbC.maidDestroyed then dbC else maidClean dbC k
          | none => dbC).uniforms.TransitionProgress =
          dbC.uniforms.TransitionProgress := by
      intro dbC ck
      cases ck with
      | none => rfl
      | some k => by_cases h : dbC.maidDestroyed <;> simp [h, maidClean]
    simp only [hmt]
    simp [completeTransition, startAnimation, renderIfAlive]
    split <;> split <;> simp
  · rw [hcommit]
    have hmt : ∀ (dbC : DBState) (ck : Option MaidTask),
        (match ck with
          | some k => if dbC.maidDestroyed then dbC else maidClean dbC k
          | none => dbC).texture = dbC.texture := by
      intro dbC ck
      cases ck with
      | none => rfl
      | some k => by_cases h : dbC.maidDestroyed <;> simp [h, maidClean]
    simp only [hmt]
    have hsess : (performStepPhase (iterPhase db sess 9).1 (iterPhase db sess 9).2).2.newTexture = sess.newTexture := by
      rw [iterPhase_sess]; rfl
    rw [hsess]
    simp [completeTransition, startAnimation, renderIfAlive]
    split <;> split <;> simp
  · rw [hcommit]
    have hmt : ∀ (dbC : DBState) (ck : Option MaidTask),
        (match ck with
          | some k => if dbC.maidDestroyed then dbC else maidClean dbC k
          | none => dbC).currentImage = dbC.currentImage := by
      intro dbC ck
      cases ck with
      | none => rfl
      | some k => by_cases h : dbC.maidDestroyed <;> simp [h, maidClean]
    simp only [hmt]
    have hsess : (performStepPhase (iterPhase db sess 9).1 (iterPhase db sess 9).2).2.newCoverArtUrl = sess.newCoverArtUrl := by
      rw [iterPhase_sess]; rfl
    rw [hsess]
    simp [completeTransition, startAnimation, renderIfAlive]
    split <;> split <;> simp
  · rw [hcommit]
    have hmt : ∀ (dbC : DBState) (ck : Option MaidTask),
        (match ck with
          | some k => if dbC.maidDestroyed then dbC else maidClean dbC k
          | none => dbC).uniforms.NewBlurredCoverArt =
          dbC.uniforms.NewBlurredCoverArt := by
      intro dbC ck
      cases ck with
      | none => rfl
      | some k => by_cases h : dbC.maidDestroyed <;> simp [h, maidClean]
    simp only [hmt]
    simp [completeTransition, startAnimation, renderIfAlive]
    split <;> split <;> simp

/-- A concrete fresh session carrying texture 5 toward image b. -/
def sess0 : Session := ⟨0, false, 0, 10, 50, ⟨5, 1, 1⟩, "b", none, false⟩

/-- Witness for C3: a concrete fresh session stepped through. -/
theorem transition_ten_steps_witness :
    sess0.canceled = false ∧ sess0.currentStep = 0 ∧ sess0.totalSteps = 10 ∧
    (iterPhase (mkDynamicBackground {}) sess0 10).1.uniforms.TransitionProgress = 1 ∧
    (performAnimationStep 0 (iterPhase (mkDynamicBackground {}) sess0 9).1
        (iterPhase (mkDynamicBackground {}) sess0 9).2).1.currentImage = some "b" :=
  ⟨rfl, rfl, rfl,
   (transition_ten_steps (mkDynamicBackground {}) sess0 0 rfl rfl rfl).2.2.2.1,
   (transition_ten_steps (mkDynamicBackground {}) sess0 0 rfl rfl rfl).2.2.2.2.2.2.2.1⟩

/-! Claim C8: resize clamps to 500 and recomputes the circle regions. -/

/-- C8: the size-change callback first clamps each observed dimension up
to 500, scales by the device pixel ratio, and recomputes the circles
from the clamped scaled viewport: background radius 1.5 times the
larger axis, center 1.0 (width-dominant) or 0.75, left 0.75, right 0.65
(width-dominant) or 0.5; it renders immediately and restarts the
animation loop. -/
theorem resize_clamps_and_recomputes (db : DBState) (width height dpr now : ℚ)
    (hr : db.renderer = true) :
    (resizeObserved db width height dpr now).uniforms.BackgroundCircleRadius =
      max (max width 500 * dpr) (max height 500 * dpr) * (3 / 2) ∧
    (resizeObserved db width height dpr now).uniforms.CenterCircleRadius =
      max (max width 500 * dpr) (max height 500 * dpr) *
        (if max width 500 * dpr > max height 500 * dpr then 1 else 3 / 4) ∧
    (resizeObserved db width height dpr now).uniforms.LeftCircleRadius =
      max (max width 500 * dpr) (max height 500 * dpr) * (3 / 4) ∧
    (resizeObserved db width height dpr now).uniforms.RightCircleRadius =
      max (max width 500 * dpr) (max height 500 * dpr) *
        (if max width 500 * dpr > max height 500 * dpr then 13 / 20 else 1 / 2) ∧
    (resizeObserved db width height dpr now).uniforms.BackgroundCircleOrigin =
      ⟨max width 500 * dpr / 2, max height 500 * dpr / 2⟩ ∧
    (resizeObserved db width height dpr now).uniforms.CenterCircleOrigin =
      ⟨max width 500 * dpr / 2, max height 500 * dpr / 2⟩ ∧
    (resizeObserved db width height dpr now).uniforms.LeftCircleOrigin =
      ⟨0, max height 500 * dpr⟩ ∧
    (resizeObserved db width height dpr now).uniforms.RightCircleOrigin =
      ⟨max width 500 * dpr, 0⟩ ∧
    (resizeObserved db width height dpr now).renderCount = db.renderCount + 2 ∧
    (resizeObserved db width height dpr now).animationFrameId.isSome = true := by
  have hmax : ∀ a b : ℚ, (if a > b then a else b) = max a b := by
    intro a b
    rcases le_or_lt a b with h | h
    · rw [if_neg (not_lt.mpr h), max_eq_right h]
    · rw [if_pos h, max_eq_left h.le]
  unfold resizeObserved updateContainerDimensions startAnimation
  simp [hr, hmax]

/-- Witness for C8: an observed 10 by 10 host is clamped to 500 by 500;
with pixel ratio 1 the background circle radius becomes 750. -/
theorem resize_clamps_witness :
    (mkDynamicBackground {}).renderer = true ∧
    (resizeObserved (mkDynamicBackground {}) 10 10 1 0).uniforms.BackgroundCircleRadius =
      max (max 10 500 * 1) (max 10 500 * 1) * (3 / 2) ∧
    (resizeObserved (mkDynamicBackground {}) 10 10 1 0).uniforms.BackgroundCircleRadius = 750 :=
  ⟨rfl, (resize_clamps_and_recomputes (mkDynamicBackground {}) 10 10 1 0 rfl).1,
   by decide⟩

/-! Claim C1: a new Update during an in-flight transition. -/

/-- The C1 scenario: a fresh instance (transition duration 0.5 s), image
A set first, then update(C) at 1000 ms, then update(B) at 1250 ms while
the A to C crossfade is in flight.  Loads take 10 ms and decode at 600
by 600. -/
def c1world : World :=
  {initialWorld {} with tasks :=
    [(0, TaskAction.callUpdate "A" none none none),
     (1000, TaskAction.callUpdate "C" none none none),
     (1250, TaskAction.callUpdate "B" none none none)]}

/-- The C1 scenario after n event-loop turns. -/
def c1sim (n : Nat) : World := runLoop okOracle 10 n c1world

/-- Counterexample for C1: after update(B) is processed (turn 9,
currentImage is B), the supposedly canceled A-to-C session keeps
stepping and its final step still commits C as the current image (turn
20), so the in-flight steps did not become no-ops and C is committed as
current after update(B). -/
theorem update_during_transition_counterexample :
    (c1sim 9).db.currentImage = some "B" ∧
    (c1sim 20).db.currentImage = some "C" ∧
    (c1sim 20).db.events = [Event.commit "C"] ∧
    (c1sim 20).db.sessions.map Session.canceled = [false, false] := by
  refine ⟨by decide, by decide, by decide, by decide⟩

/-- C1 (amended): issuing update(B) while transitioning from A to C does
not cancel the in-flight session: neither session is ever canceled, the
final step of the old session commits C as current after update(B) was
issued, and the current image of the controller ends as B only because
the later transition for B commits afterwards; both completion promises
resolve. -/
theorem update_during_transition_final_state :
    (c1sim 26).db.currentImage = some "B" ∧
    (c1sim 26).db.events = [Event.commit "C", Event.commit "B"] ∧
    (c1sim 26).db.sessions.map Session.canceled = [false, false] ∧
    (c1sim 26).db.sessions.map Session.resolved = [true, true] ∧
    (c1sim 26).tasks = [] := by
  refine ⟨by decide, by decide, by decide, by decide, by decide⟩

/-! Claim C6: Destroy is idempotent and leaves nothing pending. -/

/-- A state in which every per-resource teardown step has already been
applied: exactly the fields that cleanup forces. -/
structure Cleaned (db : DBState) : Prop where
  resizeObs : db.resizeObserver = false
  animFrame : db.animationFrameId = none
  prog : db.uniforms.TransitionProgress = 0
  blurTex : db.uniforms.BlurredCoverArt = none
  newTex : db.uniforms.NewBlurredCoverArt = none
  bgO : db.uniforms.BackgroundCircleOrigin = ⟨0, 0⟩
  cO : db.uniforms.CenterCircleOrigin = ⟨0, 0⟩
  lO : db.uniforms.LeftCircleOrigin = ⟨0, 0⟩
  rO : db.uniforms.RightCircleOrigin = ⟨0, 0⟩
  mat : db.material = false
  tex : db.texture = none
  rend : db.renderer = false
  parent : db.parentAttached = false
  geom : db.meshGeometryDisposed = true
  cacheE : db.cache = []
  curImg : db.currentImage = none
  hue : db.currentPlaceholderHueShift = 0

/-- Disposing an already-disposed uniform set is the identity. -/
theorem dispose_uniforms_of_cleaned (u : ShaderUniforms) (d : List Nat)
    (h1 : u.BlurredCoverArt = none) (h2 : u.NewBlurredCoverArt = none)
    (h3 : u.TransitionProgress = 0) (h4 : u.BackgroundCircleOrigin = ⟨0, 0⟩)
    (h5 : u.CenterCircleOrigin = ⟨0, 0⟩) (h6 : u.LeftCircleOrigin = ⟨0, 0⟩)
    (h7 : u.RightCircleOrigin = ⟨0, 0⟩) :
    DisposeShaderUniforms u d = (u, d) := by
  unfold DisposeShaderUniforms
  cases u
  simp_all

/-- After cleanup every per-resource teardown has been applied. -/
theorem cleaned_cleanup (db : DBState) : Cleaned (cleanup db) := by
  constructor <;>
    simp [cleanup, DisposeShaderUniforms] <;>
    rcases hb : db.uniforms.BlurredCoverArt with _ | t1 <;>
    rcases hn : db.uniforms.NewBlurredCoverArt with _ | t2 <;>
    simp [hb, hn]

/-- Cleanup of an already-cleaned state is the identity. -/
theorem cleanup_of_cleaned (db : DBState) (h : Cleaned db) : cleanup db = db := by
  obtain ⟨ho, ha, hp, hb, hn, h4, h5, h6, h7, hm, htx, hr, hpar, hg, hc, hci, hh⟩ := h
  unfold cleanup
  rw [dispose_uniforms_of_cleaned db.uniforms db.disposed hb hn hp h4 h5 h6 h7]
  rw [htx]
  cases db
  simp_all

/-- Every maid cleanup callback preserves cleanedness. -/
theorem cleaned_interp (db : DBState) (t : MaidTask) (h : Cleaned db) :
    Cleaned (interpMaidTask db t) := by
  cases t with
  | geometry =>
    exact ⟨h.resizeObs, h.animFrame, h.prog, h.blurTex, h.newTex, h.bgO, h.cO,
      h.lO, h.rO, h.mat, h.tex, h.rend, h.parent, rfl, h.cacheE, h.curImg, h.hue⟩
  | renderer => simpa [interpMaidTask, h.rend] using h
  | material => simpa [interpMaidTask, h.mat] using h
  | texture => simpa [interpMaidTask, h.tex] using h
  | uniforms =>
    show Cleaned _
    unfold interpMaidTask
    rw [dispose_uniforms_of_cleaned db.uniforms db.disposed h.blurTex h.newTex
      h.prog h.bgO h.cO h.lO h.rO]
    exact h
  | animFrame => simpa [interpMaidTask, h.animFrame] using h
  | domRemove => simpa [interpMaidTask, h.parent] using h
  | cacheClear =>
    exact ⟨h.resizeObs, h.animFrame, h.prog, h.blurTex, h.newTex, h.bgO, h.cO,
      h.lO, h.rO, h.mat, h.tex, h.rend, h.parent, h.geom, rfl, h.curImg, h.hue⟩
  | fallback =>
    show Cleaned (cleanup db)
    rw [cleanup_of_cleaned db h]
    exact h
  | sessionCancel sid =>
    exact ⟨h.resizeObs, h.animFrame, rfl, h.blurTex, h.newTex, h.bgO, h.cO,
      h.lO, h.rO, h.mat, h.tex, h.rend, h.parent, h.geom, h.cacheE, h.curImg, h.hue⟩
  | resizeObs => simpa [interpMaidTask, h.resizeObs] using h

/-- Running any list of maid cleanup callbacks preserves cleanedness. -/
theorem cleaned_run (l : List MaidTask) (db : DBState) (h : Cleaned db) :
    Cleaned (runMaidTasks l db) := by
  induction l generalizing db with
  | nil => exact h
  | cons t l ih => exact ih (interpMaidTask db t) (cleaned_interp db t h)

/-- Destroying the maid preserves cleanedness. -/
theorem cleaned_maidDestroy (db : DBState) (h : Cleaned db) :
    Cleaned (maidDestroy db) := by
  have hr := cleaned_run db.maidTasks db h
  exact ⟨hr.resizeObs, hr.animFrame, hr.prog, hr.blurTex, hr.newTex, hr.bgO,
    hr.cO, hr.lO, hr.rO, hr.mat, hr.tex, hr.rend, hr.parent, hr.geom,
    hr.cacheE, hr.curImg, hr.hue⟩

/-- After Destroy every per-resource teardown has been applied. -/
theorem cleaned_destroy (db : DBState) : Cleaned (Destroy db) := by
  unfold Destroy
  split
  · exact cleaned_cleanup db
  · exact cleaned_maidDestroy (cleanup db) (cleaned_cleanup db)

/-- Cleanup callbacks other than a session cancellation leave the
session list untouched. -/
theorem interp_sessions_eq (db : DBState) (t : MaidTask)
    (h : ∀ sid : Nat, t ≠ MaidTask.sessionCancel sid) :
    (interpMaidTask db t).sessions = db.sessions := by
  cases t with
  | geometry => rfl
  | renderer => dsimp only [interpMaidTask]; split <;> rfl
  | material => dsimp only [interpMaidTask]; split <;> rfl
  | texture =>
    dsimp only [interpMaidTask]
    rcases db.texture with _ | tx <;> rfl
  | uniforms => rfl
  | animFrame => dsimp only [interpMaidTask]; split <;> rfl
  | domRemove => dsimp only [interpMaidTask]; split <;> rfl
  | cacheClear => rfl
  | fallback => rfl
  | sessionCancel sid => exact absurd rfl (h sid)
  | resizeObs => dsimp only [interpMaidTask]; split <;> rfl

/-- Counterexample for C5: immediately after construction the instance
is idle (no session), yet the incoming-texture uniform is not null: it
holds the 1x1 placeholder texture. -/
theorem incoming_nonnull_at_construction_counterexample :
    (mkDynamicBackground {}).sessions = [] ∧
    (mkDynamicBackground {}).uniforms.NewBlurredCoverArt ≠ none := by
  refine ⟨rfl, by decide⟩

/-- pickMin returns an element of the queue together with the rest: the
queue is a permutation of the pair. -/
theorem pickMin_perm : ∀ (l : List (ℚ × TaskAction)) (p : ℚ × TaskAction)
    (rest : List (ℚ × TaskAction)),
    pickMin l = some (p, rest) → l.Perm (p :: rest) := by
  intro l
  induction l with
  | nil => intro p rest h; simp [pickMin] at h
  | cons x xs ih =>
    intro p rest h
    rw [pickMin] at h
    rcases hxs : pickMin xs with _ | yys
    · rw [hxs] at h
      have hnil : xs = [] := by
        cases xs with
        | nil => rfl
        | cons z zs =>
          rw [pickMin] at hxs
          rcases hzs : pickMin zs with _ | q
          · rw [hzs] at hxs; simp at hxs
          · obtain ⟨q1, q2⟩ := q
            rw [hzs] at hxs
            dsimp at hxs
            split at hxs <;> simp at hxs
      simp only [Option.some.injEq, Prod.mk.injEq] at h
      obtain ⟨rfl, rfl⟩ := h
      subst hnil
      exact List.Perm.refl _
    · obtain ⟨y, ys⟩ := yys
      rw [hxs] at h
      dsimp at h
      by_cases hle : x.1 ≤ y.1
      · rw [if_pos hle] at h
        simp only [Option.some.injEq, Prod.mk.injEq] at h
        obtain ⟨rfl, rfl⟩ := h
        exact List.Perm.refl _
      · rw [if_neg hle] at h
        simp only [Option.some.injEq, Prod.mk.injEq] at h
        obtain ⟨rfl, rfl⟩ := h
        have hperm := ih y ys hxs
        exact (hperm.cons x).trans (List.Perm.swap y x ys)

/-- The invariant carried through every reachable world: transition
progress stays in the unit interval, every session has 10 total steps
and a step counter at most 10, every scheduled step task targets a
session that is canceled or strictly mid-flight, at most one step task
per session id is scheduled, and session ids are allocated below the
session id counter. -/
structure LoopInv (w : World) : Prop where
  prog0 : 0 ≤ w.db.uniforms.TransitionProgress
  prog1 : w.db.uniforms.TransitionProgress ≤ 1
  total : ∀ s ∈ w.db.sessions, s.totalSteps = 10
  steps : ∀ s ∈ w.db.sessions, s.currentStep ≤ 10
  target : ∀ p ∈ w.tasks, ∀ sid : Nat, p.2 = TaskAction.sessionStep sid →
    ∀ s ∈ w.db.sessions, s.sid = sid → (s.canceled = true ∨ s.currentStep < 10)
  countLe : ∀ sid : Nat,
    (w.tasks.countP (fun p => p.2 = TaskAction.sessionStep sid)) ≤ 1
  freshS : ∀ s ∈ w.db.sessions, s.sid < w.nextSid
  freshT : ∀ p ∈ w.tasks, ∀ sid : Nat, p.2 = TaskAction.sessionStep sid →
    sid < w.nextSid

/-- The invariant holds at construction. -/
theorem inv_initial (o : Options) : LoopInv (initialWorld o) := by
  constructor <;> simp [initialWorld, mkDynamicBackground, GetShaderUniforms]

/-- Enqueueing a non-step task preserves the invariant. -/
theorem inv_enqueue (w : World) (t : ℚ) (a : TaskAction) (h : LoopInv w)
    (ha : ∀ sid : Nat, a ≠ TaskAction.sessionStep sid) : LoopInv (schedule w t a) := by
  constructor
  · exact h.prog0
  · exact h.prog1
  · exact h.total
  · exact h.steps
  · intro p hp sid hps s hs hsid
    rcases List.mem_append.mp hp with hin | hone
    · exact h.target p hin sid hps s hs hsid
    · simp at hone
      rw [hone] at hps
      exact absurd hps (ha sid)
  · intro sid
    have heq : (schedule w t a).tasks = w.tasks ++ [(t, a)] := rfl
    rw [heq, List.countP_append]
    have hz : List.countP (fun p => decide (p.2 = TaskAction.sessionStep sid)) [(t, a)] = 0 := by
      simp [List.countP, List.countP.go, ha sid]
    have hle := h.countLe sid
    omega
  · exact h.freshS
  · intro p hp sid hps
    rcases List.mem_append.mp hp with hin | hone
    · exact h.freshT p hin sid hps
    · simp at hone
      rw [hone] at hps
      exact absurd hps (ha sid)

/-- The instance state carried by an UpdatePre outcome. -/
def UpdatePreOut.st : UpdatePreOut → DBState
  | UpdatePreOut.destroyed d => d
  | UpdatePreOut.unchanged d => d
  | UpdatePreOut.firstTime d _ _ => d
  | UpdatePreOut.startLoad d _ _ => d

/-- The synchronous head of Update never touches the uniforms. -/
theorem updatePre_st_uniforms (db : DBState) (image : String)
    (hue? blur? speed? : Option ℚ) :
    (UpdatePre db image hue? blur? speed?).st.uniforms = db.uniforms := by
  unfold UpdatePre
  split
  · rfl
  · dsimp only
    split
    · rfl
    · split <;> rfl

/-- The synchronous head of Update never touches the sessions. -/
theorem updatePre_st_sessions (db : DBState) (image : String)
    (hue? blur? speed? : Option ℚ) :
    (UpdatePre db image hue? blur? speed?).st.sessions = db.sessions := by
  unfold UpdatePre
  split
  · rfl
  · dsimp only
    split
    · rfl
    · split <;> rfl

/-- The blur cache path never touches the uniforms. -/
theorem gbca_uniforms (db : DBState) (url : String) (hue : ℚ) (oracle : Oracle) :
    (getBlurredCoverArt db url hue oracle).1.uniforms = db.uniforms := by
  unfold getBlurredCoverArt
  rcases hc : cacheLookup db.cache url with _ | c
  · simp [hc]
    rcases ho : oracle url with _ | wh <;> simp [ho]
  · simp [hc]

/-- The blur cache path never touches the sessions. -/
theorem gbca_sessions (db : DBState) (url : String) (hue : ℚ) (oracle : Oracle) :
    (getBlurredCoverArt db url hue oracle).1.sessions = db.sessions := by
  unfold getBlurredCoverArt
  rcases hc : cacheLookup db.cache url with _ | c
  · simp [hc]
    rcases ho : oracle url with _ | wh <;> simp [ho]
  · simp [hc]

/-- Starting the animation loop does not touch the transition
progress. -/
theorem startAnimation_prog (db : DBState) (now : ℚ) :
    (startAnimation db now).uniforms.TransitionProgress =
      db.uniforms.TransitionProgress := by
  unfold startAnimation; dsimp only; split <;> rfl

/-- Starting the animation loop does not touch the sessions. -/
theorem startAnimation_sessions (db : DBState) (now : ℚ) :
    (startAnimation db now).sessions = db.sessions := by
  unfold startAnimation; dsimp only; split <;> rfl

/-- Resizing does not touch the transition progress. -/
theorem updateCD_prog (db : DBState) (width height dpr now : ℚ) :
    (updateContainerDimensions db width height dpr now).uniforms.TransitionProgress =
      db.uniforms.TransitionProgress := by
  unfold updateContainerDimensions
  rw [startAnimation_prog]

/-- Resizing does not touch the sessions. -/
theorem updateCD_sessions (db : DBState) (width height dpr now : ℚ) :
    (updateContainerDimensions db width height dpr now).sessions = db.sessions := by
  unfold updateContainerDimensions
  rw [startAnimation_sessions]

/-- Mounting does not touch the transition progress. -/
theorem append_prog (db : DBState) (cw ch dpr now : ℚ) :
    (AppendToElement db cw ch dpr now).uniforms.TransitionProgress =
      db.uniforms.TransitionProgress := by
  unfold AppendToElement
  split
  · rfl
  · rw [updateCD_prog]
    unfold maidGive
    split <;> rfl

/-- Mounting does not touch the sessions. -/
theorem append_sessions (db : DBState) (cw ch dpr now : ℚ) :
    (AppendToElement db cw ch dpr now).sessions = db.sessions := by
  unfold AppendToElement
  split
  · rfl
  · rw [updateCD_sessions]
    unfold maidGive
    split <;> rfl

/-- Starting the animation loop does not touch the incoming texture. -/
theorem startAnimation_newTex (db : DBState) (now : ℚ) :
    (startAnimation db now).uniforms.NewBlurredCoverArt =
      db.uniforms.NewBlurredCoverArt := by
  unfold startAnimation; dsimp only; split <;> rfl

/-- Committing a transition resets the transition progress to 0. -/
theorem completeTransition_prog (now : ℚ) (db : DBState) (tex : Texture)
    (url : String) :
    (completeTransition now db tex url).uniforms.TransitionProgress = 0 := by
  unfold completeTransition
  rw [startAnimation_prog]
  unfold renderIfAlive
  split <;> rfl

/-- Committing a transition clears the incoming texture slot. -/
theorem completeTransition_newTex (now : ℚ) (db : DBState) (tex : Texture)
    (url : String) :
    (completeTransition now db tex url).uniforms.NewBlurredCoverArt = none := by
  unfold completeTransition
  rw [startAnimation_newTex]
  unfold renderIfAlive
  split <;> rfl

/-- Committing a transition does not touch the sessions. -/
theorem completeTransition_sessions (now : ℚ) (db : DBState) (tex : Texture)
    (url : String) :
    (completeTransition now db tex url).sessions = db.sessions := by
  unfold completeTransition
  rw [startAnimation_sessions]
  unfold renderIfAlive
  rcases htex : db.texture with _ | t <;> dsimp only <;> split <;> rfl

/-- Destroy resets the transition progress to 0. -/
theorem destroy_prog (db : DBState) :
    (Destroy db).uniforms.TransitionProgress = 0 :=
  (cleaned_destroy db).prog

/-- One maid cleanup callback maps each session to one with the same
id, step counter and total, only possibly setting the cancel flag. -/
theorem interp_sessions_weak (db : DBState) (t : MaidTask) :
    ∀ s' ∈ (interpMaidTask db t).sessions, ∃ s ∈ db.sessions,
      s'.sid = s.sid ∧ s'.currentStep = s.currentStep ∧
      s'.totalSteps = s.totalSteps ∧ (s.canceled = true → s'.canceled = true) := by
  intro s' hs'
  by_cases hcancel : ∃ sid : Nat, t = MaidTask.sessionCancel sid
  · obtain ⟨sid, rfl⟩ := hcancel
    have hmap : (interpMaidTask db (MaidTask.sessionCancel sid)).sessions =
        db.sessions.map (fun s => if s.sid = sid then {s with canceled := true} else s) := rfl
    rw [hmap] at hs'
    obtain ⟨s0, hs0, heq⟩ := List.mem_map.mp hs'
    by_cases hsid : s0.sid = sid
    · rw [if_pos hsid] at heq
      exact ⟨s0, hs0, by rw [← heq], by rw [← heq], by rw [← heq],
        fun _ => by rw [← heq]⟩
    · rw [if_neg hsid] at heq
      exact ⟨s0, hs0, by rw [← heq], by rw [← heq], by rw [← heq],
        fun hcv => by rw [← heq]; exact hcv⟩
  · push_neg at hcancel
    rw [interp_sessions_eq db t hcancel] at hs'
    exact ⟨s', hs', rfl, rfl, rfl, fun hcv => hcv⟩

/-- Destroy maps each session to one with the same id, step counter and
total, only possibly setting the cancel flag. -/
theorem destroy_sessions_weak (db : DBState) :
    ∀ s' ∈ (Destroy db).sessions, ∃ s ∈ db.sessions,
      s'.sid = s.sid ∧ s'.currentStep = s.currentStep ∧
      s'.totalSteps = s.totalSteps ∧ (s.canceled = true → s'.canceled = true) := by
  have hrun : ∀ (l : List MaidTask) (d : DBState), ∀ s' ∈ (runMaidTasks l d).sessions,
      ∃ s ∈ d.sessions, s'.sid = s.sid ∧ s'.currentStep = s.currentStep ∧
        s'.totalSteps = s.totalSteps ∧ (s.canceled = true → s'.canceled = true) := by
    intro l
    induction l with
    | nil => intro d s' hs'; exact ⟨s', hs', rfl, rfl, rfl, fun hcv => hcv⟩
    | cons t l ih =>
      intro d s' hs'
      obtain ⟨s1, hs1, h1, h2, h3, h4⟩ := ih (interpMaidTask d t) s' hs'
      obtain ⟨s0, hs0, g1, g2, g3, g4⟩ := interp_sessions_weak d t s1 hs1
      exact ⟨s0, hs0, h1.trans g1, h2.trans g2, h3.trans g3,
        fun hcv => h4 (g4 hcv)⟩
  intro s' hs'
  unfold Destroy at hs'
  split at hs'
  · exact ⟨s', hs', rfl, rfl, rfl, fun hcv => hcv⟩
  · have : (maidDestroy (cleanup db)).sessions =
        (runMaidTasks (cleanup db).maidTasks (cleanup db)).sessions := rfl
    rw [this] at hs'
    exact hrun (cleanup db).maidTasks (cleanup db) s' hs'

/-- Removing the picked task (and advancing the clock) preserves the
invariant. -/
theorem inv_rest (w : World) (h : LoopInv w) (t : ℚ) (a : TaskAction)
    (rest : List (ℚ × TaskAction)) (hperm : w.tasks.Perm ((t, a) :: rest))
    (n : ℚ) : LoopInv {w with tasks := rest, now := n} := by
  constructor
  · exact h.prog0
  · exact h.prog1
  · exact h.total
  · exact h.steps
  · intro p hp sid hps s hs hsid
    exact h.target p (hperm.mem_iff.mpr (List.mem_cons_of_mem _ hp)) sid hps s hs hsid
  · intro sid
    have hpr : ({w with tasks := rest, now := n} : World).tasks = rest := rfl
    rw [hpr]
    have hc := h.countLe sid
    rw [hperm.countP_eq, List.countP_cons] at hc
    omega
  · exact h.freshS
  · intro p hp sid hps
    exact h.freshT p (hperm.mem_iff.mpr (List.mem_cons_of_mem _ hp)) sid hps

/-- A generic step: replacing the instance state with one whose progress
is still in the unit interval and whose sessions are unchanged preserves
the invariant (the task queue and the session id counter are kept). -/
theorem inv_replace_db (w : World) (h : LoopInv w) (db' : DBState)
    (hp0 : 0 ≤ db'.uniforms.TransitionProgress)
    (hp1 : db'.uniforms.TransitionProgress ≤ 1)
    (hs : db'.sessions = w.db.sessions) : LoopInv {w with db := db'} := by
  constructor
  · exact hp0
  · exact hp1
  · rw [show ({w with db := db'} : World).db.sessions = db'.sessions from rfl, hs]
    exact h.total
  · rw [show ({w with db := db'} : World).db.sessions = db'.sessions from rfl, hs]
    exact h.steps
  · intro p hp sid hps s hsmem hsid
    rw [show ({w with db := db'} : World).db.sessions = db'.sessions from rfl, hs] at hsmem
    exact h.target p hp sid hps s hsmem hsid
  · exact h.countLe
  · intro s hsmem
    rw [show ({w with db := db'} : World).db.sessions = db'.sessions from rfl, hs] at hsmem
    exact h.freshS s hsmem
  · exact h.freshT

/-- Executing a caller Update segment preserves the invariant. -/
theorem inv_execUpdate (oracle : Oracle) (d : ℚ) (w : World) (h : LoopInv w)
    (image : String) (hue? blur? speed? : Option ℚ) :
    LoopInv (execAction oracle d w (TaskAction.callUpdate image hue? blur? speed?)) := by
  have hu := updatePre_st_uniforms w.db image hue? blur? speed?
  have hsess := updatePre_st_sessions w.db image hue? blur? speed?
  rw [execAction]
  rcases hU : UpdatePre w.db image hue? blur? speed? with db' | db' | ⟨db', i', h'⟩ | ⟨db', i', h'⟩ <;>
    rw [hU] at hu hsess <;>
    dsimp [UpdatePreOut.st] at hu hsess
  · exact inv_replace_db w h db' (hu ▸ h.prog0) (hu ▸ h.prog1) hsess
  · exact inv_replace_db w h db' (hu ▸ h.prog0) (hu ▸ h.prog1) hsess
  · exact inv_enqueue _ _ _
      (inv_replace_db w h db' (hu ▸ h.prog0) (hu ▸ h.prog1) hsess)
      (fun sid => by simp)
  · exact inv_enqueue _ _ _
      (inv_replace_db w h db' (hu ▸ h.prog0) (hu ▸ h.prog1) hsess)
      (fun sid => by simp)

/-- Executing Destroy preserves the invariant. -/
theorem inv_execDestroy (oracle : Oracle) (d : ℚ) (w : World) (h : LoopInv w) :
    LoopInv (execAction oracle d w TaskAction.callDestroy) := by
  rw [execAction]
  constructor
  · rw [show ({w with db := Destroy w.db} : World).db = Destroy w.db from rfl, destroy_prog]
  · rw [show ({w with db := Destroy w.db} : World).db = Destroy w.db from rfl, destroy_prog]
    norm_num
  · intro s hs
    obtain ⟨s0, hs0, _, _, h3, _⟩ := destroy_sessions_weak w.db s hs
    rw [h3]
    exact h.total s0 hs0
  · intro s hs
    obtain ⟨s0, hs0, _, h2, _, _⟩ := destroy_sessions_weak w.db s hs
    rw [h2]
    exact h.steps s0 hs0
  · intro p hp sid hps s hs hsid
    obtain ⟨s0, hs0, h1, h2, _, h4⟩ := destroy_sessions_weak w.db s hs
    rcases h.target p hp sid hps s0 hs0 (by rw [← h1, hsid]) with hcv | hlt
    · exact Or.inl (h4 hcv)
    · exact Or.inr (by rw [h2]; exact hlt)
  · exact h.countLe
  · intro s hs
    obtain ⟨s0, hs0, h1, _, _, _⟩ := destroy_sessions_weak w.db s hs
    rw [h1]
    exact h.freshS s0 hs0
  · exact h.freshT

/-- Executing a mount preserves the invariant. -/
theorem inv_execAppend (oracle : Oracle) (d : ℚ) (w : World) (h : LoopInv w)
    (cw ch dpr : ℚ) :
    LoopInv (execAction oracle d w (TaskAction.callAppend cw ch dpr)) := by
  rw [execAction]
  exact inv_replace_db w h _ (by rw [append_prog]; exact h.prog0)
    (by rw [append_prog]; exact h.prog1) (append_sessions _ _ _ _ _)

/-- Executing a resize preserves the invariant. -/
theorem inv_execResize (oracle : Oracle) (d : ℚ) (w : World) (h : LoopInv w)
    (width height dpr : ℚ) :
    LoopInv (execAction oracle d w (TaskAction.callResize width height dpr)) := by
  rw [execAction]
  have hp : (resizeObserved w.db width height dpr w.now).uniforms.TransitionProgress =
      w.db.uniforms.TransitionProgress := by
    unfold resizeObserved
    rw [updateCD_prog]
  have hs : (resizeObserved w.db width height dpr w.now).sessions = w.db.sessions := by
    unfold resizeObserved
    rw [updateCD_sessions]
  exact inv_replace_db w h _ (by rw [hp]; exact h.prog0)
    (by rw [hp]; exact h.prog1) hs

/-- Executing the first-time initialization continuation preserves the
invariant. -/
theorem inv_execInitResume (oracle : Oracle) (d : ℚ) (w : World) (h : LoopInv w)
    (image : String) (hue : ℚ) :
    LoopInv (execAction oracle d w (TaskAction.initResume image hue)) := by
  have hu := gbca_uniforms w.db image hue oracle
  have hs := gbca_sessions w.db image hue oracle
  rw [execAction]
  rcases hr : (getBlurredCoverArt w.db image hue oracle).2 with _ | canvas
  · exact inv_replace_db w h _ (by rw [show (({(getBlurredCoverArt w.db image hue oracle).1 with
      events := (getBlurredCoverArt w.db image hue oracle).1.events ++ [Event.loadError image]} : DBState)).uniforms =
      (getBlurredCoverArt w.db image hue oracle).1.uniforms from rfl, hu]; exact h.prog0)
      (by rw [show (({(getBlurredCoverArt w.db image hue oracle).1 with
      events := (getBlurredCoverArt w.db image hue oracle).1.events ++ [Event.loadError image]} : DBState)).uniforms =
      (getBlurredCoverArt w.db image hue oracle).1.uniforms from rfl, hu]; exact h.prog1)
      (by rw [show (({(getBlurredCoverArt w.db image hue oracle).1 with
      events := (getBlurredCoverArt w.db image hue oracle).1.events ++ [Event.loadError image]} : DBState)).sessions =
      (getBlurredCoverArt w.db image hue oracle).1.sessions from rfl, hs])
  · have hiu : (initTexture (getBlurredCoverArt w.db image hue oracle).1 canvas image hue).uniforms.TransitionProgress =
        w.db.uniforms.TransitionProgress := by
      rw [show (initTexture (getBlurredCoverArt w.db image hue oracle).1 canvas image hue).uniforms.TransitionProgress =
        (getBlurredCoverArt w.db image hue oracle).1.uniforms.TransitionProgress from rfl, hu]
    have his : (initTexture (getBlurredCoverArt w.db image hue oracle).1 canvas image hue).sessions =
        w.db.sessions := by
      rw [show (initTexture (getBlurredCoverArt w.db image hue oracle).1 canvas image hue).sessions =
        (getBlurredCoverArt w.db image hue oracle).1.sessions from rfl, hs]
    exact inv_replace_db w h _ (by rw [hiu]; exact h.prog0)
      (by rw [hiu]; exact h.prog1) his

/-- The synchronous texture swap preparation resets the transition
progress to 0. -/
theorem updateAfterLoadCore_prog (db : DBState) (canvas : CanvasV) :
    (updateAfterLoadCore db canvas).1.uniforms.TransitionProgress = 0 := rfl

/-- The synchronous texture swap preparation does not touch the
sessions. -/
theorem updateAfterLoadCore_sessions (db : DBState) (canvas : CanvasV) :
    (updateAfterLoadCore db canvas).1.sessions = db.sessions := by
  unfold updateAfterLoadCore
  dsimp only
  rw [renderIfAlive_sessions]
  rcases db.uniforms.NewBlurredCoverArt with _ | t <;> rfl

/-- Registering a maid callback does not touch the uniforms. -/
theorem maidGive_uniforms (db : DBState) (t : MaidTask) :
    (maidGive db t).uniforms = db.uniforms := by
  unfold maidGive; split <;> rfl

/-- Registering a maid callback does not touch the sessions. -/
theorem maidGive_sessions (db : DBState) (t : MaidTask) :
    (maidGive db t).sessions = db.sessions := by
  unfold maidGive; split <;> rfl

/-- Appending a fresh session at step 0 with 10 total steps, together
with its single scheduled first step, preserves the invariant. -/
theorem inv_addSession (w : World) (h : LoopInv w) (dbG : DBState)
    (hu : dbG.uniforms = w.db.uniforms) (hs : dbG.sessions = w.db.sessions)
    (sess : Session) (hsid : sess.sid = w.nextSid) (hstep : sess.currentStep = 0)
    (htot : sess.totalSteps = 10) (t2 n2 : ℚ) :
    LoopInv ⟨{dbG with sessions := dbG.sessions ++ [sess]},
             w.tasks ++ [(t2, TaskAction.sessionStep sess.sid)], n2,
             w.nextSid + 1⟩ := by
  constructor
  · show 0 ≤ dbG.uniforms.TransitionProgress
    rw [hu]; exact h.prog0
  · show dbG.uniforms.TransitionProgress ≤ 1
    rw [hu]; exact h.prog1
  · intro s hsmem
    rw [show ({dbG with sessions := dbG.sessions ++ [sess]} : DBState).sessions =
        dbG.sessions ++ [sess] from rfl, hs] at hsmem
    rcases List.mem_append.mp hsmem with hold | hnew
    · exact h.total s hold
    · simp at hnew
      rw [hnew, htot]
  · intro s hsmem
    rw [show ({dbG with sessions := dbG.sessions ++ [sess]} : DBState).sessions =
        dbG.sessions ++ [sess] from rfl, hs] at hsmem
    rcases List.mem_append.mp hsmem with hold | hnew
    · exact h.steps s hold
    · simp at hnew
      rw [hnew, hstep]
      norm_num
  · intro p hp sid hps s hsmem hsid2
    rw [show ({dbG with sessions := dbG.sessions ++ [sess]} : DBState).sessions =
        dbG.sessions ++ [sess] from rfl, hs] at hsmem
    rcases List.mem_append.mp hp with hpold | hpnew
    · rcases List.mem_append.mp hsmem with hold | hnew
      · exact h.target p hpold sid hps s hold hsid2
      · simp at hnew
        have hfr := h.freshT p hpold sid hps
        rw [hnew, hsid] at hsid2
        omega
    · simp at hpnew
      have hsid' : sid = sess.sid := by
        rw [hpnew] at hps
        have hps' : TaskAction.sessionStep sess.sid = TaskAction.sessionStep sid := hps
        injection hps' with hq
        omega
      rcases List.mem_append.mp hsmem with hold | hnew
      · have hfr := h.freshS s hold
        rw [hsid', hsid] at hsid2
        omega
      · simp at hnew
        rw [hnew, hstep]
        norm_num
  · intro sid
    show List.countP (fun p => decide (p.2 = TaskAction.sessionStep sid))
      (w.tasks ++ [(t2, TaskAction.sessionStep sess.sid)]) ≤ 1
    rw [List.countP_append]
    by_cases hq : sid = sess.sid
    · have hz : List.countP (fun p => decide (p.2 = TaskAction.sessionStep sid)) w.tasks = 0 := by
        rw [List.countP_eq_zero]
        intro p hp
        simp only [decide_eq_true_eq]
        intro hps
        have := h.freshT p hp sid hps
        rw [hq, hsid] at this
        omega
      rw [hz, hq]
      simp
    · have hz : List.countP (fun p => decide (p.2 = TaskAction.sessionStep sid))
          [(t2, TaskAction.sessionStep sess.sid)] = 0 := by
        have hd : decide (sess.sid = sid) = false := by
          simp only [decide_eq_false_iff_not]
          exact fun hc => hq hc.symm
        simp [List.countP, List.countP.go, hd]
      rw [hz]
      have := h.countLe sid
      omega
  · intro s hsmem
    rw [show ({dbG with sessions := dbG.sessions ++ [sess]} : DBState).sessions =
        dbG.sessions ++ [sess] from rfl, hs] at hsmem
    show s.sid < w.nextSid + 1
    rcases List.mem_append.mp hsmem with hold | hnew
    · have := h.freshS s hold
      omega
    · simp at hnew
      rw [hnew, hsid]
      omega
  · intro p hp sid hps
    show sid < w.nextSid + 1
    rcases List.mem_append.mp hp with hpold | hpnew
    · have := h.freshT p hpold sid hps
      omega
    · simp at hpnew
      rw [hpnew] at hps
      have hps' : TaskAction.sessionStep sess.sid = TaskAction.sessionStep sid := hps
      injection hps' with hq
      rw [← hq, hsid]
      omega

/-- Starting an animated transition preserves the invariant. -/
theorem inv_animateStart (w : World) (h : LoopInv w) (newTexture : Texture)
    (image : String) : LoopInv (animateTransitionStart w newTexture image) := by
  unfold animateTransitionStart
  dsimp only
  by_cases hmd : w.db.maidDestroyed = true
  · rw [if_pos hmd]
    exact inv_addSession w h w.db rfl rfl _ rfl rfl rfl (w.now + 50) w.now
  · rw [if_neg hmd]
    exact inv_addSession w h (maidGive w.db (MaidTask.sessionCancel w.nextSid))
      (maidGive_uniforms _ _) (maidGive_sessions _ _) _ rfl rfl rfl (w.now + 50) w.now

/-- Executing the Update continuation after the image load preserves the
invariant. -/
theorem inv_execUpdateResume (oracle : Oracle) (d : ℚ) (w : World) (h : LoopInv w)
    (image : String) (hue : ℚ) :
    LoopInv (execAction oracle d w (TaskAction.updateResume image hue)) := by
  have hu := gbca_uniforms w.db image hue oracle
  have hs := gbca_sessions w.db image hue oracle
  rw [execAction]
  rcases hr : (getBlurredCoverArt w.db image hue oracle).2 with _ | canvas
  · exact inv_replace_db w h _ (by rw [show (({(getBlurredCoverArt w.db image hue oracle).1 with
      events := (getBlurredCoverArt w.db image hue oracle).1.events ++ [Event.loadError image]} : DBState)).uniforms =
      (getBlurredCoverArt w.db image hue oracle).1.uniforms from rfl, hu]; exact h.prog0)
      (by rw [show (({(getBlurredCoverArt w.db image hue oracle).1 with
      events := (getBlurredCoverArt w.db image hue oracle).1.events ++ [Event.loadError image]} : DBState)).uniforms =
      (getBlurredCoverArt w.db image hue oracle).1.uniforms from rfl, hu]; exact h.prog1)
      (by rw [show (({(getBlurredCoverArt w.db image hue oracle).1 with
      events := (getBlurredCoverArt w.db image hue oracle).1.events ++ [Event.loadError image]} : DBState)).sessions =
      (getBlurredCoverArt w.db image hue oracle).1.sessions from rfl, hs])
  · have hwr : LoopInv {w with db := (getBlurredCoverArt w.db image hue oracle).1} :=
      inv_replace_db w h _ (by rw [hu]; exact h.prog0)
        (by rw [hu]; exact h.prog1) hs
    unfold updateAfterLoad
    dsimp only
    split
    · refine inv_replace_db _ hwr _ ?_ ?_ ?_
      · rw [completeTransition_prog]
      · rw [completeTransition_prog]; norm_num
      · rw [completeTransition_sessions]
        exact updateAfterLoadCore_sessions _ _
    · exact inv_animateStart _
        (inv_replace_db _ hwr _ (by rw [updateAfterLoadCore_prog])
          (by rw [updateAfterLoadCore_prog]; norm_num)
          (updateAfterLoadCore_sessions _ _)) _ _

/-- Rewriting every session with a given id (of which no step task may
remain scheduled) to a single bounded session value preserves the
invariant. -/
theorem inv_mapSession (w : World) (h : LoopInv w) (sid : Nat) (sess' : Session)
    (db' : DBState)
    (hdbs : db'.sessions = w.db.sessions.map (fun s => if s.sid = sid then sess' else s))
    (hp0 : 0 ≤ db'.uniforms.TransitionProgress)
    (hp1 : db'.uniforms.TransitionProgress ≤ 1)
    (hsid' : sess'.sid = sid) (htot' : sess'.totalSteps = 10)
    (hstep' : sess'.currentStep ≤ 10)
    (hzero : List.countP (fun p => decide (p.2 = TaskAction.sessionStep sid)) w.tasks = 0)
    (hfresh : sid < w.nextSid) :
    LoopInv {w with db := db'} := by
  constructor
  · exact hp0
  · exact hp1
  · intro s hsmem
    rw [show ({w with db := db'} : World).db.sessions = db'.sessions from rfl, hdbs] at hsmem
    obtain ⟨s0, hs0, heq⟩ := List.mem_map.mp hsmem
    by_cases hq : s0.sid = sid
    · rw [if_pos hq] at heq
      rw [← heq, htot']
    · rw [if_neg hq] at heq
      rw [← heq]
      exact h.total s0 hs0
  · intro s hsmem
    rw [show ({w with db := db'} : World).db.sessions = db'.sessions from rfl, hdbs] at hsmem
    obtain ⟨s0, hs0, heq⟩ := List.mem_map.mp hsmem
    by_cases hq : s0.sid = sid
    · rw [if_pos hq] at heq
      rw [← heq]
      exact hstep'
    · rw [if_neg hq] at heq
      rw [← heq]
      exact h.steps s0 hs0
  · intro p hp sid2 hps s hsmem hsid2
    rw [show ({w with db := db'} : World).db.sessions = db'.sessions from rfl, hdbs] at hsmem
    obtain ⟨s0, hs0, heq⟩ := List.mem_map.mp hsmem
    by_cases hq : s0.sid = sid
    · rw [if_pos hq] at heq
      have hsid2' : sid2 = sid := by rw [← hsid2, ← heq, hsid']
      exfalso
      have hcz := List.countP_eq_zero.mp hzero p hp
      simp only [decide_eq_true_eq] at hcz
      rw [hsid2'] at hps
      exact hcz hps
    · rw [if_neg hq] at heq
      rw [← heq]
      rw [← heq] at hsid2
      exact h.target p hp sid2 hps s0 hs0 hsid2
  · exact h.countLe
  · intro s hsmem
    rw [show ({w with db := db'} : World).db.sessions = db'.sessions from rfl, hdbs] at hsmem
    obtain ⟨s0, hs0, heq⟩ := List.mem_map.mp hsmem
    by_cases hq : s0.sid = sid
    · rw [if_pos hq] at heq
      rw [← heq, hsid']
      exact hfresh
    · rw [if_neg hq] at heq
      rw [← heq]
      exact h.freshS s0 hs0
  · exact h.freshT

/-- Same as inv_mapSession but additionally scheduling the next step of
the strictly mid-flight session. -/
theorem inv_mapSessionSchedule (w : World) (h : LoopInv w) (sid : Nat)
    (sess' : Session) (db' : DBState)
    (hdbs : db'.sessions = w.db.sessions.map (fun s => if s.sid = sid then sess' else s))
    (hp0 : 0 ≤ db'.uniforms.TransitionProgress)
    (hp1 : db'.uniforms.TransitionProgress ≤ 1)
    (hsid' : sess'.sid = sid) (htot' : sess'.totalSteps = 10)
    (hlt' : sess'.currentStep < 10)
    (hzero : List.countP (fun p => decide (p.2 = TaskAction.sessionStep sid)) w.tasks = 0)
    (hfresh : sid < w.nextSid) (t2 : ℚ) :
    LoopInv (schedule {w with db := db'} t2 (TaskAction.sessionStep sid)) := by
  have hbase := inv_mapSession w h sid sess' db' hdbs hp0 hp1 hsid' htot'
    (Nat.le_of_lt hlt') hzero hfresh
  constructor
  · exact hbase.prog0
  · exact hbase.prog1
  · exact hbase.total
  · exact hbase.steps
  · intro p hp sid2 hps s hsmem hsid2
    have hp' : p ∈ w.tasks ++ [(t2, TaskAction.sessionStep sid)] := hp
    rcases List.mem_append.mp hp' with hpold | hpnew
    · exact hbase.target p hpold sid2 hps s hsmem hsid2
    · simp at hpnew
      have hsid2' : sid2 = sid := by
        rw [hpnew] at hps
        have hps' : TaskAction.sessionStep sid = TaskAction.sessionStep sid2 := hps
        injection hps' with hq
        omega
      rw [show (schedule {w with db := db'} t2 (TaskAction.sessionStep sid)).db.sessions =
        db'.sessions from rfl, hdbs] at hsmem
      obtain ⟨s0, hs0, heq⟩ := List.mem_map.mp hsmem
      by_cases hq : s0.sid = sid
      · rw [if_pos hq] at heq
        rw [← heq]
        exact Or.inr hlt'
      · rw [if_neg hq] at heq
        exfalso
        rw [← heq] at hsid2
        rw [hsid2'] at hsid2
        exact hq hsid2
  · intro sid2
    show List.countP (fun p => decide (p.2 = TaskAction.sessionStep sid2))
      (w.tasks ++ [(t2, TaskAction.sessionStep sid)]) ≤ 1
    rw [List.countP_append]
    by_cases hq : sid2 = sid
    · rw [hq, hzero]
      simp
    · have hz : List.countP (fun p => decide (p.2 = TaskAction.sessionStep sid2))
          [(t2, TaskAction.sessionStep sid)] = 0 := by
        have hd : decide (sid = sid2) = false := by
          simp only [decide_eq_false_iff_not]
          exact fun hc => hq hc.symm
        simp [List.countP, List.countP.go, hd]
      rw [hz]
      have := h.countLe sid2
      omega
  · exact hbase.freshS
  · intro p hp sid2 hps
    have hp' : p ∈ w.tasks ++ [(t2, TaskAction.sessionStep sid)] := hp
    show sid2 < w.nextSid
    rcases List.mem_append.mp hp' with hpold | hpnew
    · exact h.freshT p hpold sid2 hps
    · simp at hpnew
      rw [hpnew] at hps
      have hps' : TaskAction.sessionStep sid = TaskAction.sessionStep sid2 := hps
      injection hps' with hq
      omega

/-- The cleanup-key bookkeeping after a commit does not touch the
uniforms. -/
theorem cleanKey_uniforms (db : DBState) (ck : Option MaidTask) :
    (match ck with
      | some k => if db.maidDestroyed then db else maidClean db k
      | none => db).uniforms = db.uniforms := by
  rcases ck with _ | k
  · rfl
  · dsimp only
    split <;> rfl

/-- The cleanup-key bookkeeping after a commit does not touch the
sessions. -/
theorem cleanKey_sessions (db : DBState) (ck : Option MaidTask) :
    (match ck with
      | some k => if db.maidDestroyed then db else maidClean db k
      | none => db).sessions = db.sessions := by
  rcases ck with _ | k
  · rfl
  · dsimp only
    split <;> rfl

/-- Projection helper: replacing the session list leaves it visible. -/
theorem sessionsMap_proj (dbX : DBState) (f : Session → Session) :
    ({dbX with sessions := dbX.sessions.map f} : DBState).sessions =
      dbX.sessions.map f := rfl

/-- Projection helper: replacing the session list keeps the uniforms. -/
theorem sessionsMap_uniforms (dbX : DBState) (f : Session → Session) :
    ({dbX with sessions := dbX.sessions.map f} : DBState).uniforms =
      dbX.uniforms := rfl

/-- Executing a scheduled crossfade step preserves the invariant, given
the facts carried by the consumed step task: the target session is
canceled or strictly mid-flight, no other step task for this id remains,
and the id is below the allocator. -/
theorem inv_execSessionStep (w : World) (h : LoopInv w) (sid : Nat)
    (htargetPick : ∀ s ∈ w.db.sessions, s.sid = sid →
      (s.canceled = true ∨ s.currentStep < 10))
    (hzero : List.countP (fun p => decide (p.2 = TaskAction.sessionStep sid)) w.tasks = 0)
    (hfresh : sid < w.nextSid) :
    LoopInv (execSessionStep w sid) := by
  unfold execSessionStep
  rcases hfind : w.db.sessions.find? (fun s => s.sid = sid) with _ | sess
  · rw [hfind]
    exact h
  · rw [hfind]
    have hsmem : sess ∈ w.db.sessions := List.mem_of_find?_eq_some hfind
    have hsid : sess.sid = sid := by
      have := List.find?_some hfind
      simpa using this
    have htot : sess.totalSteps = 10 := h.total sess hsmem
    dsimp only
    rcases hcv : sess.canceled with _ | _
    · -- not canceled: the step body runs
      have hstep : sess.currentStep < 10 := by
        rcases htargetPick sess hsmem hsid with hc | hlt
        · rw [hcv] at hc; exact absurd hc (by simp)
        · exact hlt
      have hphaseu : (performStepPhase w.db sess).1.uniforms = {w.db.uniforms with
          TransitionProgress :=
            ((sess.currentStep + 1 : ℕ) : ℚ) / ((sess.totalSteps : ℕ) : ℚ)} := by
        unfold performStepPhase
        dsimp only
        rw [renderIfAlive_uniforms]
      have hphases : (performStepPhase w.db sess).1.sessions = w.db.sessions := by
        unfold performStepPhase
        dsimp only
        rw [renderIfAlive_sessions]
      have hb0 : (0 : ℚ) ≤ ((sess.currentStep + 1 : ℕ) : ℚ) / ((sess.totalSteps : ℕ) : ℚ) := by
        apply div_nonneg <;> exact Nat.cast_nonneg _
      have hb1 : ((sess.currentStep + 1 : ℕ) : ℚ) / ((sess.totalSteps : ℕ) : ℚ) ≤ 1 := by
        rw [htot]
        rw [div_le_one (by norm_num)]
        exact_mod_cast (by omega : sess.currentStep + 1 ≤ 10)
      by_cases hlt : sess.currentStep + 1 < 10
      · have hcond : (performStepPhase w.db sess).2.currentStep <
            (performStepPhase w.db sess).2.totalSteps ∧
            (performStepPhase w.db sess).2.canceled = false := by
          constructor
          · show sess.currentStep + 1 < sess.totalSteps
            omega
          · exact hcv
        have hr : performAnimationStep w.now w.db sess =
            ((performStepPhase w.db sess).1, (performStepPhase w.db sess).2,
              StepOutcome.scheduledNext) := by
          unfold performAnimationStep
          rw [if_neg (show ¬(sess.canceled = true) from by
            rw [hcv]; exact Bool.false_ne_true)]
          dsimp only
          rw [if_pos hcond]
        rw [hr]
        dsimp only
        refine inv_mapSessionSchedule w h sid
          {sess with currentStep := sess.currentStep + 1} _ ?_ ?_ ?_ hsid htot hlt
          hzero hfresh (w.now + sess.stepDuration)
        · rw [sessionsMap_proj, hphases]
          rfl
        · rw [sessionsMap_uniforms, hphaseu]
          exact hb0
        · rw [sessionsMap_uniforms, hphaseu]
          exact hb1
      · have hcond : ¬((performStepPhase w.db sess).2.currentStep <
            (performStepPhase w.db sess).2.totalSteps ∧
            (performStepPhase w.db sess).2.canceled = false) := by
          intro hc
          have h1 : sess.currentStep + 1 < sess.totalSteps := hc.1
          omega
        have hr : performAnimationStep w.now w.db sess =
            (let dbC := completeTransition w.now (performStepPhase w.db sess).1
              (performStepPhase w.db sess).2.newTexture
              (performStepPhase w.db sess).2.newCoverArtUrl
             let dbC2 := match (performStepPhase w.db sess).2.cleanupKey with
               | some k => if dbC.maidDestroyed then dbC else maidClean dbC k
               | none => dbC
             (dbC2, {(performStepPhase w.db sess).2 with resolved := true},
               StepOutcome.committed)) := by
          unfold performAnimationStep
          rw [if_neg (show ¬(sess.canceled = true) from by
            rw [hcv]; exact Bool.false_ne_true)]
          dsimp only
          rw [if_neg hcond]
          rw [if_neg (show ¬((performStepPhase w.db sess).2.canceled = true) from by
            rw [show (performStepPhase w.db sess).2.canceled = sess.canceled from rfl, hcv]
            exact Bool.false_ne_true)]
        rw [hr]
        dsimp only
        refine inv_mapSession w h sid
          {(performStepPhase w.db sess).2 with resolved := true} _ ?_ ?_ ?_ hsid htot
          (show sess.currentStep + 1 ≤ 10 by omega) hzero hfresh
        · rw [sessionsMap_proj, cleanKey_sessions, completeTransition_sessions, hphases]
        · rw [sessionsMap_uniforms, cleanKey_uniforms, completeTransition_prog]
        · rw [sessionsMap_uniforms, cleanKey_uniforms, completeTransition_prog]
          norm_num
    · -- canceled: the step resolves without effect
      have hr : performAnimationStep w.now w.db sess =
          (w.db, {sess with resolved := true}, StepOutcome.resolvedCanceled) := by
        unfold performAnimationStep
        rw [if_pos hcv]
      rw [hr]
      dsimp only
      refine inv_mapSession w h sid {sess with resolved := true} _
        (sessionsMap_proj _ _) ?_ ?_ hsid htot (h.steps sess hsmem) hzero hfresh
      · exact h.prog0
      · exact h.prog1

/-- One turn of the event loop preserves the invariant. -/
theorem inv_loopStep (oracle : Oracle) (d : ℚ) (w : World) (h : LoopInv w) :
    LoopInv (loopStep oracle d w) := by
  rw [loopStep]
  rcases hpick : pickMin w.tasks with _ | pr
  · exact h
  · obtain ⟨⟨t, a⟩, rest⟩ := pr
    dsimp only
    have hperm := pickMin_perm w.tasks (t, a) rest hpick
    have hrest : LoopInv {w with tasks := rest, now := max w.now t} :=
      inv_rest w h t a rest hperm (max w.now t)
    cases a with
    | callUpdate image hue blur speed =>
      exact inv_execUpdate oracle d _ hrest image hue blur speed
    | callDestroy => exact inv_execDestroy oracle d _ hrest
    | callAppend cw ch dpr => exact inv_execAppend oracle d _ hrest cw ch dpr
    | callResize width height dpr =>
      exact inv_execResize oracle d _ hrest width height dpr
    | initResume image hue => exact inv_execInitResume oracle d _ hrest image hue
    | updateResume image hue => exact inv_execUpdateResume oracle d _ hrest image hue
    | sessionStep sid =>
      rw [execAction]
      refine inv_execSessionStep _ hrest sid ?_ ?_ ?_
      · intro s hs hsids
        exact h.target (t, TaskAction.sessionStep sid)
          (hperm.mem_iff.mpr (List.mem_cons_self _ _)) sid rfl s hs hsids
      · have hc := h.countLe sid
        rw [hperm.countP_eq, List.countP_cons] at hc
        have hone : (decide ((t, TaskAction.sessionStep sid).2 = TaskAction.sessionStep sid)) = true := by
          simp
        rw [hone, if_pos rfl] at hc
        show List.countP (fun p => decide (p.2 = TaskAction.sessionStep sid)) rest = 0
        omega
      · exact h.freshT (t, TaskAction.sessionStep sid)
          (hperm.mem_iff.mpr (List.mem_cons_self _ _)) sid rfl

/-- Every reachable world satisfies the invariant. -/
theorem inv_reachable (w : World) (h : Reachable w) : LoopInv w := by
  induction h with
  | init o => exact inv_initial o
  | step oracle d w hw ih => exact inv_loopStep oracle d w ih
  | callUpdate w t image hue blur speed hw ih =>
    exact inv_enqueue w t _ ih (fun sid => by simp)
  | callDestroy w t hw ih => exact inv_enqueue w t _ ih (fun sid => by simp)
  | callAppend w t cw ch dpr hw ih => exact inv_enqueue w t _ ih (fun sid => by simp)
  | callResize w t width height dpr hw ih =>
    exact inv_enqueue w t _ ih (fun sid => by simp)

/-- C5 (amended): in every reachable state the transition-progress
uniform lies in [0, 1]; the incoming-texture uniform is cleared to null
by every transition commit; but immediately after construction, while
idle, it is not null: it holds the 1x1 placeholder texture. -/
theorem progress_in_unit_interval_and_incoming_slots :
    (∀ w : World, Reachable w → 0 ≤ w.db.uniforms.TransitionProgress ∧
      w.db.uniforms.TransitionProgress ≤ 1) ∧
    (∀ (now : ℚ) (db : DBState) (tex : Texture) (url : String),
      (completeTransition now db tex url).uniforms.NewBlurredCoverArt = none) ∧
    (∀ o : Options, ∃ t : Texture,
      (mkDynamicBackground o).uniforms.NewBlurredCoverArt = some t ∧
      t.cw = 1 ∧ t.ch = 1) := by
  refine ⟨?_, ?_, ?_⟩
  · intro w hw
    have hinv := inv_reachable w hw
    exact ⟨hinv.prog0, hinv.prog1⟩
  · intro now db tex url
    exact completeTransition_newTex now db tex url
  · intro o
    exact ⟨⟨1, 1, 1⟩, rfl, rfl, rfl⟩

/-- Witness for C5 (amended): the freshly constructed world is
reachable and its progress is in the unit interval; commit clears the
incoming slot on a concrete state; the fresh instance holds the 1x1
placeholder. -/
theorem progress_in_unit_interval_witness :
    (0 ≤ (initialWorld {}).db.uniforms.TransitionProgress ∧
      (initialWorld {}).db.uniforms.TransitionProgress ≤ 1) ∧
    (completeTransition 0 (mkDynamicBackground {}) ⟨5, 1, 1⟩
      "x").uniforms.NewBlurredCoverArt = none ∧
    (∃ t : Texture, (mkDynamicBackground {}).uniforms.NewBlurredCoverArt = some t ∧
      t.cw = 1 ∧ t.ch = 1) :=
  ⟨progress_in_unit_interval_and_incoming_slots.1 (initialWorld {}) (Reachable.init {}),
   progress_in_unit_interval_and_incoming_slots.2.1 0 (mkDynamicBackground {}) ⟨5, 1, 1⟩ "x",
   progress_in_unit_interval_and_incoming_slots.2.2 {}⟩
